import Mathlib

/-!
Verification of the reel-generation backend: a shallow embedding of the
timestamp aligner, caption formatter, video assembler and pipeline
controllers, with theorems checking the specification's claims.

Times and JS numbers are modelled by `ℚ` (exact arithmetic; the spec's
"up to floating rounding" caveats become exact equalities), JS truthiness
and `||` defaults are modelled explicitly, and effectful code is modelled
by explicit state passing / outcome parameters.
-/

/-- JS `x || dflt` on numbers: `0` (and missing) falls through to the default. -/
def jsOrQ (x : Option ℚ) (dflt : ℚ) : ℚ :=
  match x with
  | some v => if v = 0 then dflt else v
  | none => dflt

/-- JS truthiness of an optional string: `undefined` and `""` are falsy. -/
def strTruthy (x : Option String) : Bool :=
  match x with
  | some s => !s.isEmpty
  | none => false

/-- JS `String.replace(/[^\w]/g, "")`: keep only word characters. -/
def stripNonWord (s : String) : String :=
  String.mk (s.data.filter fun c => c.isAlphanum || c = '_')

/-- JS `String.toLowerCase` (ASCII). -/
def strToLower (s : String) : String :=
  String.mk (s.data.map Char.toLower)

/-- JS `String.trim`: strip leading and trailing whitespace. -/
def trimStr (s : String) : String :=
  String.mk ((s.data.dropWhile Char.isWhitespace).reverse.dropWhile
    Char.isWhitespace).reverse

/-- Accumulating walk splitting off maximal non-whitespace runs; `acc` holds
the current run reversed. -/
def splitNonWsAux : List Char → List Char → List String
  | acc, [] => if acc.isEmpty then [] else [String.mk acc.reverse]
  | acc, c :: t =>
    if c.isWhitespace then
      if acc.isEmpty then splitNonWsAux [] t
      else String.mk acc.reverse :: splitNonWsAux [] t
    else splitNonWsAux (c :: acc) t

/-- JS `s.split(/\s+/).filter(Boolean)`: the maximal non-whitespace runs. -/
def splitNonWs (l : List Char) : List String :=
  splitNonWsAux [] l

/-- JS `s.split(sep)` for a single-character separator (keeps empties). -/
def splitOnChar (sep : Char) : List Char → List Char → List String
  | acc, [] => [String.mk acc.reverse]
  | acc, c :: t =>
    if c = sep then String.mk acc.reverse :: splitOnChar sep [] t
    else splitOnChar sep (c :: acc) t

/-- Does `needle` occur at the head of `hay`? (helper for `strIncludes`). -/
def listStartsWith : List Char → List Char → Bool
  | _, [] => true
  | [], _ :: _ => false
  | h :: hs, n :: ns => h = n && listStartsWith hs ns

/-- Does `needle` occur as a contiguous run inside `hay`? -/
def listHasInfix (hay needle : List Char) : Bool :=
  match hay with
  | [] => needle.isEmpty
  | c :: t => listStartsWith (c :: t) needle || listHasInfix t needle

/-- JS `hay.includes(needle)`. -/
def strIncludes (hay needle : String) : Bool :=
  listHasInfix hay.data needle.data

/-- A word with timing from the transcription backend (`WhisperWord`; the
source's `end` field is named `endT` since `end` is reserved in Lean). -/
structure WhisperWord where
  word : String
  start : ℚ
  endT : ℚ
deriving DecidableEq

/-- A transcript segment with timing (`WhisperSegment`). -/
structure WhisperSegment where
  segId : ℤ
  start : ℚ
  endT : ℚ
  text : String
deriving DecidableEq

/-- A scene of the generated script (`ScriptScene`). -/
structure ScriptScene where
  id : String
  text : String
  visualDescription : String
deriving DecidableEq

/-- A caption span of a timeline scene (the `subtitles` array entries). -/
structure SubtitleEntry where
  id : String
  start : ℚ
  endT : ℚ
  text : String
deriving DecidableEq

/-- The aligner's per-scene result (`SceneTimestamp`). -/
structure SceneTimestamp where
  sceneId : String
  startTime : ℚ
  endTime : ℚ
  duration : ℚ
  text : String
  subtitles : List SubtitleEntry
deriving DecidableEq

/-- One step of the word-matching loop of `mapScenesToTimestamps`: the
accumulator is `(startWordIndex, matchedWords)` and `p` is the indexed
whisper word; mirrors the guarded body of the `for` loop. -/
def matchStep (sceneWords : List String) (acc : Nat × Nat) (p : Nat × WhisperWord) :
    Nat × Nat :=
  if acc.2 < sceneWords.length then
    let whisperWord := stripNonWord (strToLower p.2.word)
    let sceneWord := stripNonWord (sceneWords.getD acc.2 "")
    if strIncludes whisperWord sceneWord || strIncludes sceneWord whisperWord then
      (if acc.2 = 0 then p.1 else acc.1, acc.2 + 1)
    else acc
  else acc

/-- The word-level branch of `mapScenesToTimestamps`: walks the scene list
carrying `currentWordIndex`. -/
def mapScenesWordMode (whisperWords : List WhisperWord) :
    List ScriptScene → Nat → List SceneTimestamp
  | [], _ => []
  | scene :: rest, currentWordIndex =>
    let sceneWords := splitNonWs (strToLower scene.text).data
    let m := (whisperWords.enum.drop currentWordIndex).foldl
      (matchStep sceneWords) (currentWordIndex, 0)
    let endWordIndex := min (m.1 + max sceneWords.length m.2) (whisperWords.length - 1)
    let startTime := jsOrQ ((whisperWords[m.1]?).map WhisperWord.start) 0
    let endTime := jsOrQ ((whisperWords[endWordIndex]?).map WhisperWord.endT)
      (startTime + 5)
    let subtitles := (List.range' m.1 (endWordIndex + 1 - m.1)).filterMap fun i =>
      (whisperWords[i]?).map fun w =>
        ⟨scene.id ++ "_sub_" ++ toString (i - m.1), w.start, w.endT, w.word⟩
    { sceneId := scene.id, startTime := startTime, endTime := endTime,
      duration := endTime - startTime, text := scene.text, subtitles := subtitles } ::
      mapScenesWordMode whisperWords rest (endWordIndex + 1)

/-- The segment-mode total duration: the last segment's end, else 0. -/
def segTotal (whisperSegments : List WhisperSegment) : ℚ :=
  match whisperSegments.getLast? with
  | some seg => seg.endT
  | none => 0

/-- `mapScenesToTimestamps` (ai/voiceover.service.ts, identical copy in the
legacy service file): segment-level fallback when no word timings exist,
word-level greedy matching otherwise. -/
def mapScenesToTimestamps (scenes : List ScriptScene) (whisperWords : List WhisperWord)
    (whisperSegments : List WhisperSegment) : List SceneTimestamp :=
  if whisperWords.isEmpty then
    let totalDuration : ℚ := segTotal whisperSegments
    let durationPerScene := totalDuration / (scenes.length : ℚ)
    scenes.enum.map fun p =>
      let startTime := (p.1 : ℚ) * durationPerScene
      let endTime := ((p.1 : ℚ) + 1) * durationPerScene
      let sceneSegments := whisperSegments.filter fun seg =>
        decide (startTime ≤ seg.start) && decide (seg.start < endTime)
      { sceneId := p.2.id, startTime := startTime, endTime := endTime,
        duration := endTime - startTime, text := p.2.text,
        subtitles := sceneSegments.enum.map fun q =>
          ⟨p.2.id ++ "_sub_" ++ toString q.1, q.2.start, q.2.endT, trimStr q.2.text⟩ }
  else
    mapScenesWordMode whisperWords scenes 0

/-- `getAudioDuration` (ai/voiceover.service.ts): last segment end, else last
word end, else the constant fallback `60`; never inspects the audio file. -/
def getAudioDuration (audioFilePath : String) (whisperWords : Option (List WhisperWord))
    (whisperSegments : Option (List WhisperSegment)) : ℚ :=
  match whisperSegments.bind List.getLast? with
  | some seg => seg.endT
  | none =>
    match whisperWords.bind List.getLast? with
    | some w => w.endT
    | none => 60

/-- JS `String.padStart(n, c)`. -/
def padStart (s : String) (n : Nat) (c : Char) : String :=
  if n ≤ s.length then s else String.mk (List.replicate (n - s.length) c) ++ s

/-- Truncation toward zero, the rounding of the JS `%` operator. -/
def rTrunc (x : ℚ) : ℤ :=
  if 0 ≤ x then ⌊x⌋ else ⌈x⌉

/-- JS `a % b` (truncated remainder). -/
def jsMod (a b : ℚ) : ℚ :=
  a - b * (rTrunc (a / b) : ℚ)

/-- JS `Math.round` (round half toward positive infinity). -/
def jsRound (x : ℚ) : ℤ :=
  ⌊x + 1 / 2⌋

/-- `formatTime` (generation.controller.ts, inside `generateSrtSubtitle`):
renders seconds as `HH:MM:SS,mmm`. -/
def formatTime (seconds : ℚ) : String :=
  let h : ℤ := ⌊seconds / 3600⌋
  let m : ℤ := ⌊jsMod seconds 3600 / 60⌋
  let s : ℤ := ⌊jsMod seconds 60⌋
  let ms : ℤ := jsRound (jsMod seconds 1 * 1000)
  padStart (toString h) 2 '0' ++ ":" ++ padStart (toString m) 2 '0' ++ ":" ++
    padStart (toString s) 2 '0' ++ "," ++ padStart (toString ms) 3 '0'

/-- A caption span as consumed by the assembler (id field already dropped). -/
structure SrtSpan where
  start : ℚ
  endT : ℚ
  text : String
deriving DecidableEq

/-- A scene as consumed by `generateSrtSubtitle`. -/
structure SrtScene where
  sceneText : String
  startTime : ℚ
  endTime : ℚ
  subtitles : List SrtSpan
deriving DecidableEq

/-- One output caption block: its time range and its text. -/
structure SrtBlock where
  start : ℚ
  endT : ℚ
  text : String
deriving DecidableEq

/-- Split a list into consecutive chunks of `n` (the `for (i += chunkSize)`
slicing of `generateSrtSubtitle`). -/
def chunksOf (n : Nat) (l : List α) : List (List α) :=
  if l.isEmpty ∨ n = 0 then [] else l.take n :: chunksOf n (l.drop n)
termination_by l.length
decreasing_by
  cases l with
  | nil => simp at *
  | cons a t =>
    simp only [List.length_drop, List.length_cons]
    omega

/-- The block built from one chunk of caption spans: first span's start, last
span's end, texts joined by spaces. -/
def mkChunkBlock (chunk : List SrtSpan) : SrtBlock :=
  { start := (chunk.head?.map SrtSpan.start).getD 0,
    endT := ((chunk.getLast?.map SrtSpan.endT)).getD 0,
    text := String.intercalate " " (chunk.map SrtSpan.text) }

/-- Render one numbered SRT entry (the template string pushed onto `entries`). -/
def renderBlock (index : Nat) (b : SrtBlock) : String :=
  toString index ++ "\n" ++ formatTime b.start ++ " --> " ++ formatTime b.endT ++
    "\n" ++ b.text ++ "\n"

/-- The entry-building loop of `generateSrtSubtitle`, threading the running
1-based entry index. -/
def srtLoop : Nat → List SrtScene → List String
  | _, [] => []
  | index, scene :: rest =>
    if scene.subtitles.isEmpty then
      if !scene.sceneText.isEmpty then
        renderBlock index ⟨scene.startTime, scene.endTime, scene.sceneText⟩ ::
          srtLoop (index + 1) rest
      else
        srtLoop index rest
    else
      let blocks := (chunksOf 5 scene.subtitles).map mkChunkBlock
      (blocks.enumFrom index).map (fun p => renderBlock p.1 p.2) ++
        srtLoop (index + blocks.length) rest

/-- `generateSrtSubtitle` (generation.controller.ts): the full SRT file text. -/
def generateSrtSubtitle (scenes : List SrtScene) : String :=
  String.intercalate "\n" (srtLoop 1 scenes)

/-- The caption blocks one scene contributes: 5-span chunks if it has spans,
one whole-scene block if it only has text, nothing otherwise. -/
def sceneBlocks (scene : SrtScene) : List SrtBlock :=
  if scene.subtitles.isEmpty then
    if !scene.sceneText.isEmpty then
      [⟨scene.startTime, scene.endTime, scene.sceneText⟩]
    else []
  else (chunksOf 5 scene.subtitles).map mkChunkBlock

/-- All caption blocks of the file, in output order. -/
def srtBlocks (scenes : List SrtScene) : List SrtBlock :=
  scenes.flatMap sceneBlocks

/-- The flattened timestamp sequence of a block list, in output order. -/
def timestampSeq (blocks : List SrtBlock) : List ℚ :=
  blocks.flatMap fun b => [b.start, b.endT]

/-- Numeric value of a digit character. -/
def digitVal (c : Char) : ℕ :=
  c.toNat - 48

/-- Parse a string of the exact shape `HH:MM:SS,mmm` back into seconds;
`none` when the string is not of that shape. -/
def srtTimeValue (s : String) : Option ℚ :=
  match s.data with
  | [h1, h2, c1, m1, m2, c2, s1, s2, c3, d1, d2, d3] =>
    if c1 = ':' ∧ c2 = ':' ∧ c3 = ',' ∧
        ([h1, h2, m1, m2, s1, s2, d1, d2, d3].all Char.isDigit) then
      some ((((digitVal h1 * 10 + digitVal h2) * 3600 +
        (digitVal m1 * 10 + digitVal m2) * 60 +
        (digitVal s1 * 10 + digitVal s2) : ℕ) : ℚ) +
        ((digitVal d1 * 100 + digitVal d2 * 10 + digitVal d3 : ℕ) : ℚ) / 1000)
    else none
  | _ => none

/-- What a path refers to on disk, as seen by `fs.stat`. -/
inductive FileKind where
  | file
  | dir
  | missing
deriving DecidableEq

/-- `ensureFileExists` (generation.controller.ts): `fs.stat` throws on a
missing path, and the not-a-file throw inside the `try` is swallowed by the
same `catch`, so every failure surfaces as "label not found: path". -/
def ensureFileExists (fs : String → FileKind) (filePath label : String) :
    Except String Unit :=
  match fs filePath with
  | .file => .ok ()
  | _ => .error (label ++ " not found: " ++ filePath)

/-- Output aspect ratio ("9:16" | "16:9" | "1:1"). -/
inductive AspectRatio where
  | r9x16
  | r16x9
  | r1x1
deriving DecidableEq

/-- `getVideoDimensions` (width, height). -/
def getVideoDimensions (aspectRatio : AspectRatio) : Nat × Nat :=
  match aspectRatio with
  | .r16x9 => (1920, 1080)
  | .r1x1 => (1080, 1080)
  | .r9x16 => (1080, 1920)

/-- A scene as consumed by `assembleVideoWithFfmpeg`. -/
structure AssembleScene where
  imagePath : String
  videoPath : Option String
  duration : ℚ
  sceneText : String
  startTime : ℚ
  endTime : ℚ
  subtitles : List SrtSpan
deriving DecidableEq

/-- View of an assembler scene as a caption-formatter scene (TS passes the
same objects structurally). -/
def AssembleScene.toSrtScene (sc : AssembleScene) : SrtScene :=
  ⟨sc.sceneText, sc.startTime, sc.endTime, sc.subtitles⟩

/-- Options of `assembleVideoWithFfmpeg`. -/
structure AssembleOptions where
  scenes : List AssembleScene
  voiceoverPath : String
  outputPath : String
  aspectRatio : AspectRatio
deriving DecidableEq

/-- How the spawned encoder process terminates: a `close` event with an exit
code (stderr captured), or an `error` event (ENOENT = binary missing, or
some other spawn failure with its own message). -/
inductive EncoderOutcome where
  | close (code : ℤ) (stderr : String)
  | errorEvent (enoent : Bool) (msg : String)
deriving DecidableEq

/-- The last ~12 stderr lines, trimmed (`split("\n").slice(-12).join("\n").trim()`). -/
def stderrTail (s : String) : String :=
  let ls := splitOnChar '\n' [] s.data
  trimStr (String.intercalate "\n" (ls.drop (ls.length - 12)))

/-- Result of the encoder promise in the model. -/
def encoderResult (enc : EncoderOutcome) : Except String Unit :=
  match enc with
  | .close code stderr =>
    if code = 0 then .ok ()
    else
      let lines := stderrTail stderr
      .error (if lines.isEmpty then "FFmpeg failed with exit code " ++ toString code
        else "FFmpeg failed: " ++ lines)
  | .errorEvent enoent msg =>
    .error (if enoent then
      "FFmpeg is not installed or not available in PATH. Set FFMPEG_PATH or install ffmpeg."
      else msg)

/-- `path.dirname` (POSIX): everything before the last separator. -/
def dirname (p : String) : String :=
  match p.data.reverse.findIdx? (fun c => c = '/') with
  | none => "."
  | some k => String.mk (p.data.take (p.data.length - 1 - k))

/-- `path.join` of a directory and a file name (POSIX). -/
def pathJoin (a b : String) : String :=
  a ++ "/" ++ b

/-- The (label, path) a scene's file check uses: a scene with a (truthy)
`videoPath` is checked as "Scene AI video", the others as "Scene image". -/
def sceneReq (sc : AssembleScene) : String × String :=
  if strTruthy sc.videoPath then ("Scene AI video", sc.videoPath.getD "")
  else ("Scene image", sc.imagePath)

/-- The per-scene file checks of `assembleVideoWithFfmpeg`, in loop order. -/
def checkSceneFiles (fs : String → FileKind) : List AssembleScene → Except String Unit
  | [] => .ok ()
  | sc :: rest =>
    match ensureFileExists fs (sceneReq sc).2 (sceneReq sc).1 with
    | .ok _ => checkSceneFiles fs rest
    | .error e => .error e

/-- The (label, path) pairs `assembleVideoWithFfmpeg` verifies, in order. -/
def requiredFiles (opts : AssembleOptions) : List (String × String) :=
  ("Voiceover file", opts.voiceoverPath) :: opts.scenes.map sceneReq

instance {ε α : Type} [DecidableEq ε] [DecidableEq α] : DecidableEq (Except ε α) := fun a b =>
  match a, b with
  | .ok x, .ok y =>
    if h : x = y then isTrue (by rw [h]) else isFalse (by simp [h])
  | .error x, .error y =>
    if h : x = y then isTrue (by rw [h]) else isFalse (by simp [h])
  | .ok _, .error _ => isFalse (by simp)
  | .error _, .ok _ => isFalse (by simp)

/-- Observable outcome of one assembly request: the promise result, whether
the encoder process was spawned, and the temp-file ledger afterwards. -/
structure AssembleRun where
  result : Except String Unit
  spawned : Bool
  tempFiles : List String
deriving DecidableEq

/-- `assembleVideoWithFfmpeg` (generation.controller.ts). `fs` is the
read-only disk view for the existence checks, `temp0` the temp-file ledger
before the call, `uuid` the random name part, `enc` the encoder outcome.
The filter-graph argument construction is pure string building that no
claim concerns; `spawned` records whether execution reaches the spawn call.
The SRT temp file is written before the `try` and unlinked in `finally`. -/
def assembleVideoWithFfmpeg (fs : String → FileKind) (temp0 : List String)
    (uuid : String) (enc : EncoderOutcome) (opts : AssembleOptions) : AssembleRun :=
  if opts.scenes.isEmpty then
    ⟨.error "No scenes available for video assembly", false, temp0⟩
  else
    match ensureFileExists fs opts.voiceoverPath "Voiceover file" with
    | .error e => ⟨.error e, false, temp0⟩
    | .ok _ =>
      match checkSceneFiles fs opts.scenes with
      | .error e => ⟨.error e, false, temp0⟩
      | .ok _ =>
        let srtFilePath := pathJoin (dirname opts.outputPath) ("subs-" ++ uuid ++ ".srt")
        let _srtContent := generateSrtSubtitle (opts.scenes.map AssembleScene.toSrtScene)
        let temp1 := srtFilePath :: temp0
        ⟨encoderResult enc, true, temp1.erase srtFilePath⟩

/-- A scene of the legacy assembler (unnamed legacy controller revision). -/
structure LegacyScene where
  imagePath : String
  duration : ℚ
deriving DecidableEq

/-- The legacy `assembleVideoWithFfmpeg` (concat-manifest based): verifies
the voiceover and every scene image, writes a `concat-<uuid>.txt` manifest,
spawns the encoder, and unlinks the manifest in `finally`. -/
def assembleVideoWithFfmpegLegacy (fs : String → FileKind) (temp0 : List String)
    (uuid : String) (enc : EncoderOutcome) (scenes : List LegacyScene)
    (voiceoverPath outputPath : String) : AssembleRun :=
  if scenes.isEmpty then
    ⟨.error "No scenes available for video assembly", false, temp0⟩
  else
    match ensureFileExists fs voiceoverPath "Voiceover file" with
    | .error e => ⟨.error e, false, temp0⟩
    | .ok _ =>
      match (scenes.foldl (fun acc sc => match acc with
          | .error e => .error e
          | .ok _ => ensureFileExists fs sc.imagePath "Scene image") (Except.ok ())) with
      | .error e => ⟨.error e, false, temp0⟩
      | .ok _ =>
        let concatFilePath := pathJoin (dirname outputPath) ("concat-" ++ uuid ++ ".txt")
        let temp1 := concatFilePath :: temp0
        ⟨encoderResult enc, true, temp1.erase concatFilePath⟩

/-- Project status state machine values. -/
inductive Status where
  | draft
  | researching
  | scriptReady
  | voiceoverUploaded
  | imagesReady
  | videosReady
  | processing
  | completed
  | failed
deriving DecidableEq

/-- A timeline scene as stored on the project document. -/
structure TimelineScene where
  id : String
  order : Nat
  startTime : ℚ
  endTime : ℚ
  duration : ℚ
  sceneText : String
  sceneDescription : String
  imagePrompt : String
  imagePath : Option String
  imageSource : String
  videoPath : Option String
  subtitles : List SubtitleEntry
deriving DecidableEq

/-- The project's timeline. -/
structure Timeline where
  totalDuration : ℚ
  scenes : List TimelineScene
deriving DecidableEq

/-- The project's voiceover record. -/
structure Voiceover where
  filePath : String
  duration : ℚ
deriving DecidableEq

/-- The project's script record. -/
structure Script where
  fullText : String
  scenes : List ScriptScene
deriving DecidableEq

/-- The project's transcript analysis record. -/
structure WhisperAnalysis where
  fullTranscript : String
  words : List WhisperWord
  segments : List WhisperSegment
deriving DecidableEq

/-- The project's final output record. -/
structure ProjectOutput where
  videoPath : String
  hashtags : List String
deriving DecidableEq

/-- The persisted project document (fields the modelled stages touch). -/
structure Project where
  title : String
  reelIdea : String
  status : Status
  script : Option Script
  voiceover : Option Voiceover
  whisperAnalysis : Option WhisperAnalysis
  timeline : Option Timeline
  output : Option ProjectOutput
  aspectRatio : AspectRatio
deriving DecidableEq

/-- HTTP-level reply of a stage endpoint (post-auth behaviour only). -/
inductive Resp where
  | success (msg : String)
  | badRequest (msg : String)
  | error (msg : String)
deriving DecidableEq

/-- The user's decrypted API keys (the fields the modelled stages read). -/
structure ApiKeys where
  openai : Option String
  anthropic : Option String
  pexels : Option String
  segmind : Option String
  replicate : Option String
deriving DecidableEq

/-- JS `a || b` on optional strings (empty string is falsy). -/
def jsOrStr (a b : Option String) : Option String :=
  if strTruthy a then a else b

/-- JS `a || b` on strings. -/
def jsOrS (a b : String) : String :=
  if a.isEmpty then b else a

/-- Word count of a scene text (whitespace split, empties dropped). -/
def sceneWordList (text : String) : List String :=
  splitNonWs text.data

/-- Modelled from the spec: one scene of `generateTimestampsFromScript`.
The defining module of `generateTimestampsFromScript` is imported by the
generation controller but missing from the provided sources; per spec §4.1
captions split the scene text into ~5-word groups distributed evenly
across the scene's span. -/
def gtsScene (sc : ScriptScene) (startTime dur : ℚ) : SceneTimestamp :=
  let groups := chunksOf 5 (sceneWordList sc.text)
  let k := groups.length
  let subs := groups.enum.map fun p =>
    ⟨sc.id ++ "_sub_" ++ toString p.1,
      startTime + dur * (p.1 : ℚ) / (k : ℚ),
      startTime + dur * ((p.1 : ℚ) + 1) / (k : ℚ),
      String.intercalate " " p.2⟩
  ⟨sc.id, startTime, startTime + dur, dur, sc.text, subs⟩

/-- Modelled from the spec: the scene walk of `generateTimestampsFromScript`,
carrying the running start time. -/
def gtsGo (totalDuration totalWords : ℚ) (n : Nat) :
    List ScriptScene → ℚ → List SceneTimestamp
  | [], _ => []
  | sc :: rest, t =>
    let w := (sceneWordList sc.text).length
    let dur := if totalWords = 0 then totalDuration / (n : ℚ)
      else totalDuration * (w : ℚ) / totalWords
    gtsScene sc t dur :: gtsGo totalDuration totalWords n rest (t + dur)

/-- Modelled from the spec: `generateTimestampsFromScript` — script-driven
alignment; each scene's duration is proportional to its word count (equal
split when the script has no words), scaled to the total duration. -/
def generateTimestampsFromScript (scenes : List ScriptScene) (totalDuration : ℚ) :
    List SceneTimestamp :=
  let totalWords := (scenes.map fun sc => ((sceneWordList sc.text).length : ℚ)).sum
  gtsGo totalDuration totalWords scenes.length scenes 0

/-- `uploadVoiceover` (generation.controller.ts), from the point the project
is loaded: requires a script, accepts the uploaded file path, measures the
duration via `getAudioDuration(file.path)` (no timing data passed), builds
the timeline from script-driven timestamps, and persists the project. The
returned project is the persisted state after the request. -/
def uploadVoiceover (p : Project) (file : Option String) : Resp × Project :=
  match p.script with
  | none => (.badRequest "Script must be generated before uploading voiceover", p)
  | some script =>
    if script.scenes.isEmpty then
      (.badRequest "Script must be generated before uploading voiceover", p)
    else
      match file with
      | none => (.badRequest "No audio file provided", p)
      | some filePath =>
        let audioDuration := getAudioDuration filePath none none
        let fullScriptText := String.intercalate " " (script.scenes.map ScriptScene.text)
        let sceneTimestamps := generateTimestampsFromScript script.scenes audioDuration
        let timeline : Timeline :=
          { totalDuration := audioDuration,
            scenes := sceneTimestamps.enum.map fun st =>
              { id := st.2.sceneId, order := st.1, startTime := st.2.startTime,
                endTime := st.2.endTime, duration := st.2.duration,
                sceneText := st.2.text,
                sceneDescription := ((script.scenes.find? fun s =>
                  s.id == st.2.sceneId).map ScriptScene.visualDescription).getD "",
                imagePrompt := "Pending prompt generation", imagePath := none,
                imageSource := "uploaded", videoPath := none,
                subtitles := st.2.subtitles } }
        (.success "Voiceover uploaded and analyzed",
          { p with
            voiceover := some ⟨filePath, audioDuration⟩,
            whisperAnalysis := some ⟨fullScriptText, [], []⟩,
            timeline := some timeline,
            status := .voiceoverUploaded })

/-- A per-scene image acquisition result (`generateSceneImages` entries). -/
structure ImageResult where
  sceneId : String
  success : Bool
  imagePath : Option String
  imageSource : String
deriving DecidableEq

/-- The find-and-mutate idiom `timeline.scenes.find(s => s.id === id)` plus
an in-place update: rewrites the first scene with the given id. -/
def updateFirst (l : List TimelineScene) (id : String)
    (f : TimelineScene → TimelineScene) : List TimelineScene :=
  match l with
  | [] => []
  | s :: rest => if s.id == id then f s :: rest else s :: updateFirst rest id f

/-- Apply generated image prompts to the timeline scenes (the first loop of
`generateImages`). -/
def applyPrompts (scenes : List TimelineScene) (prompts : List (String × String)) :
    List TimelineScene :=
  prompts.foldl (fun acc pr =>
    updateFirst acc pr.1 fun s => { s with imagePrompt := pr.2 }) scenes

/-- Apply image results to the timeline scenes (the second loop of
`generateImages`): only successful results with a truthy path update. -/
def applyImageResults (scenes : List TimelineScene) (results : List ImageResult) :
    List TimelineScene :=
  results.foldl (fun acc r =>
    if r.success && strTruthy r.imagePath then
      updateFirst acc r.sceneId fun s =>
        { s with imagePath := r.imagePath, imageSource := r.imageSource }
    else acc) scenes

/-- `generateImages` (generation.controller.ts), from the point the project
is loaded. `promptsOutcome`/`imagesOutcome` are the awaited provider call
results (`.error` = the call threw). The returned project is the persisted
state (a throw before the single `save()` leaves the stored project as it
was). -/
def generateImages (p : Project) (apiKeys : Option ApiKeys) (provider : String)
    (promptsOutcome : Except String (List (String × String)))
    (imagesOutcome : Except String (List ImageResult)) : Resp × Project :=
  match p.timeline with
  | none => (.badRequest "Timeline must exist before generating images", p)
  | some tl =>
    if tl.scenes.isEmpty then
      (.badRequest "Timeline must exist before generating images", p)
    else
      match apiKeys with
      | none => (.badRequest "API keys not configured", p)
      | some keys =>
        if provider == "segmind" && !strTruthy keys.segmind then
          (.badRequest "Segmind API key required for AI image generation", p)
        else if provider == "pexels" && !strTruthy keys.pexels then
          (.badRequest "Pexels API key required for stock photos", p)
        else if !strTruthy keys.openai && !strTruthy keys.anthropic then
          (.badRequest "LLM API key required for generating image prompts", p)
        else
          match promptsOutcome with
          | .error _ => (.error "Failed to generate images", p)
          | .ok prompts =>
            match imagesOutcome with
            | .error _ => (.error "Failed to generate images", p)
            | .ok results =>
              let scenes1 := applyPrompts tl.scenes prompts
              let scenes2 := applyImageResults scenes1 results
              let tl2 : Timeline := { tl with scenes := scenes2 }
              (.success "Images generated",
                { p with timeline := some tl2, status := .imagesReady })

/-- A scene handed to the AI-video service. -/
structure SceneForVideo where
  sceneId : String
  imagePath : String
  text : String
deriving DecidableEq

/-- A per-scene AI-video result (`GenerateSceneVideoResult`). -/
structure VideoResult where
  sceneId : String
  videoPath : String
  success : Bool
  error : Option String
deriving DecidableEq

/-- The per-scene result list of `generateSceneVideos`: one entry per scene,
each produced by that scene's own try/catch — `outcomes i = some msg`
models the i-th scene's try-body throwing with that message (stat failure,
backend failure or download failure), `none` models success, in which case
the clip is saved under a uuid-based name. -/
def serviceResults (scenes : List SceneForVideo) (outputDir : String)
    (outcomes : Nat → Option String) (uuid : Nat → String) : List VideoResult :=
  scenes.enum.map fun p =>
    match outcomes p.1 with
    | none =>
      { sceneId := p.2.sceneId,
        videoPath := pathJoin outputDir
          ("scene-video-" ++ p.2.sceneId ++ "-" ++ uuid p.1 ++ ".mp4"),
        success := true, error := none }
    | some e =>
      { sceneId := p.2.sceneId, videoPath := "", success := false,
        error := some e }

/-- `generateSceneVideos` (ai/video.service.ts): requires a Replicate token,
then processes every scene independently. -/
def generateSceneVideos (scenes : List SceneForVideo)
    (replicateApiToken envToken : Option String) (outputDir : String)
    (outcomes : Nat → Option String) (uuid : Nat → String) :
    Except String (List VideoResult) :=
  let token := jsOrStr replicateApiToken envToken
  if !strTruthy token then
    .error "Replicate API token is required. Set REPLICATE_API_TOKEN in .env or add it in Settings."
  else
    .ok (serviceResults scenes outputDir outcomes uuid)

/-- The scene batch the endpoint hands to the video service: scenes with a
(truthy) image, sorted by `order`, with id, image path and prompt text. -/
def scenesForVideoOf (tl : Timeline) : List SceneForVideo :=
  ((tl.scenes.filter fun s => strTruthy s.imagePath).mergeSort
    fun a b => decide (a.order ≤ b.order)).map fun s =>
    { sceneId := s.id, imagePath := s.imagePath.getD "",
      text := jsOrS s.sceneText (jsOrS s.sceneDescription "Describe this scene") }

/-- Apply AI-video results to the timeline scenes and count the successes
(the update loop of `generateSceneVideosEndpoint`). -/
def applyVideoResults (scenes : List TimelineScene) (results : List VideoResult) :
    List TimelineScene × Nat :=
  results.foldl (fun acc r =>
    if ((acc.1.find? fun s => s.id == r.sceneId).isSome) && r.success &&
        !r.videoPath.isEmpty then
      (updateFirst acc.1 r.sceneId fun s => { s with videoPath := some r.videoPath },
        acc.2 + 1)
    else acc) (scenes, 0)

/-- `generateSceneVideosEndpoint` (generation.controller.ts), from the point
the project is loaded: requires a timeline whose scenes all carry images
and a Replicate token; saves `processing`, runs the service, applies the
per-scene results, and persists `videos-ready` if at least one scene
succeeded, else the previous status. A service-level throw persists
`failed`. The returned project is the persisted state. -/
def generateSceneVideosEndpoint (p : Project) (apiKeys : Option ApiKeys)
    (envToken : Option String) (outputDir : String)
    (outcomes : Nat → Option String) (uuid : Nat → String) : Resp × Project :=
  match p.timeline with
  | none => (.badRequest "Timeline must exist before generating scene videos", p)
  | some tl =>
    if tl.scenes.isEmpty then
      (.badRequest "Timeline must exist before generating scene videos", p)
    else
      let missingImages := tl.scenes.filter fun s => !strTruthy s.imagePath
      if !missingImages.isEmpty then
        (.badRequest (toString missingImages.length ++ " scene(s) are missing images"), p)
      else
        let replicateToken := jsOrStr (apiKeys.bind ApiKeys.replicate) envToken
        if !strTruthy replicateToken then
          (.badRequest "Replicate API token is required for AI video generation. Set REPLICATE_API_TOKEN in env or add it in Settings.", p)
        else
          let previousStatus := p.status
          match generateSceneVideos (scenesForVideoOf tl) replicateToken envToken
              outputDir outcomes uuid with
          | .error e => (.error e, { p with status := .failed })
          | .ok results =>
            let applied := applyVideoResults tl.scenes results
            let successCount := applied.2
            let failedCount := (results.filter fun r => !r.success).length
            let tl2 : Timeline := { tl with scenes := applied.1 }
            let newStatus := if 0 < successCount then Status.videosReady else previousStatus
            let msg := "AI videos generated: " ++ toString successCount ++
              " succeeded, " ++ toString failedCount ++ " failed"
            (.success msg, { p with timeline := some tl2, status := newStatus })

/-- Regenerate timeline captions from the script (the `!hasAnySubtitles`
block of `generateVideo`): per script-driven timestamp, the first timeline
scene with that id gets the fresh spans and times. -/
def applyRegeneratedSubtitles (scenes : List TimelineScene)
    (sceneTimestamps : List SceneTimestamp) : List TimelineScene :=
  sceneTimestamps.foldl (fun acc st =>
    updateFirst acc st.sceneId fun s =>
      { s with
        subtitles := st.subtitles
        startTime := st.startTime
        endTime := st.endTime
        duration := st.duration }) scenes

/-- A timeline scene prepared for assembly (the `.filter.sort.map` in
`generateVideo`): stored positive duration wins, else the clamped span;
a falsy `videoPath` is dropped. -/
def toAssembleScene (s : TimelineScene) : AssembleScene :=
  { imagePath := s.imagePath.getD "",
    videoPath := if strTruthy s.videoPath then s.videoPath else none,
    duration := if 0 < s.duration then s.duration
      else max (1 / 2) (s.endTime - s.startTime),
    sceneText := s.sceneText,
    startTime := s.startTime,
    endTime := s.endTime,
    subtitles := s.subtitles.map fun x => ⟨x.start, x.endT, x.text⟩ }

/-- `generateVideo` (generation.controller.ts), from the point the project
is loaded: precondition checks (voiceover file, timeline with scenes, no
scene missing an image), caption regeneration if no scene has spans,
hashtags, then assembly via `assembleVideoWithFfmpeg`; success persists
`output` and `completed`, an assembler error persists `failed` and surfaces
the message verbatim. The returned project is the persisted state. -/
def generateVideo (p : Project) (apiKeys : Option ApiKeys)
    (hashtagsOutcome : List String) (fs : String → FileKind) (temp0 : List String)
    (uuid : String) (enc : EncoderOutcome) (outputDir : String) : Resp × Project :=
  if !strTruthy (p.voiceover.map Voiceover.filePath) then
    (.badRequest "Voiceover is required before generating video", p)
  else
    match p.timeline with
    | none => (.badRequest "Timeline with scenes is required", p)
    | some tl =>
      if tl.scenes.isEmpty then
        (.badRequest "Timeline with scenes is required", p)
      else
        let missingImages := tl.scenes.filter fun s => !strTruthy s.imagePath
        if !missingImages.isEmpty then
          (.badRequest (toString missingImages.length ++ " scene(s) are missing images"), p)
        else
          let voiceover := (p.voiceover.getD ⟨"", 0⟩)
          let hasAnySubtitles := tl.scenes.any fun s => !s.subtitles.isEmpty
          let regen := !hasAnySubtitles &&
            p.script.isSome && decide (voiceover.duration ≠ 0)
          let regenScenes := applyRegeneratedSubtitles tl.scenes
            (generateTimestampsFromScript ((p.script.getD ⟨"", []⟩).scenes)
              voiceover.duration)
          let tl1 : Timeline := if regen then { tl with scenes := regenScenes } else tl
          let llmKey := jsOrStr (apiKeys.bind ApiKeys.openai)
            (apiKeys.bind ApiKeys.anthropic)
          let hashtags := if strTruthy llmKey then hashtagsOutcome else []
          let outputVideoPath := pathJoin outputDir "output.mp4"
          let scenes := ((tl1.scenes.filter fun s => strTruthy s.imagePath).mergeSort
            fun a b => decide (a.order ≤ b.order)).map toAssembleScene
          let run := assembleVideoWithFfmpeg fs temp0 uuid enc
            { scenes := scenes, voiceoverPath := voiceover.filePath,
              outputPath := outputVideoPath, aspectRatio := p.aspectRatio }
          let p1 : Project := { p with timeline := some tl1 }
          match run.result with
          | .ok _ =>
            let out : ProjectOutput := ⟨outputVideoPath, hashtags⟩
            (.success "Video generated successfully",
              { p1 with output := some out, status := .completed })
          | .error e => (.error e, { p1 with status := .failed })

/-- A parsed JSON value (`JSON.parse` result). -/
inductive JsValue where
  | null
  | bool (b : Bool)
  | num (q : ℚ)
  | str (s : String)
  | arr (elems : List JsValue)
  | obj (members : List (String × JsValue))

/-- Skip JSON whitespace. -/
def skipWs : List Char → List Char
  | [] => []
  | c :: t => if c = ' ' ∨ c = '\t' ∨ c = '\n' ∨ c = '\r' then skipWs t else c :: t

/-- Value of a hex digit. -/
def hexVal (c : Char) : Option ℕ :=
  if c.isDigit then some (c.toNat - 48)
  else if 'a' ≤ c ∧ c ≤ 'f' then some (c.toNat - 87)
  else if 'A' ≤ c ∧ c ≤ 'F' then some (c.toNat - 55)
  else none

/-- Parse a JSON string body (after the opening quote), fuelled. -/
def parseStringBody : Nat → List Char → List Char → Option (String × List Char)
  | 0, _, _ => none
  | _ + 1, acc, [] =>
    match acc with
    | _ => none
  | fuel + 1, acc, c :: t =>
    if c = '"' then some (String.mk acc.reverse, t)
    else if c = '\\' then
      match t with
      | [] => none
      | e :: t2 =>
        if e = '"' ∨ e = '\\' ∨ e = '/' then parseStringBody fuel (e :: acc) t2
        else if e = 'n' then parseStringBody fuel ('\n' :: acc) t2
        else if e = 't' then parseStringBody fuel ('\t' :: acc) t2
        else if e = 'r' then parseStringBody fuel ('\r' :: acc) t2
        else if e = 'b' then parseStringBody fuel ('\x08' :: acc) t2
        else if e = 'f' then parseStringBody fuel ('\x0c' :: acc) t2
        else if e = 'u' then
          match t2 with
          | a :: b :: c2 :: d :: t3 =>
            match hexVal a, hexVal b, hexVal c2, hexVal d with
            | some va, some vb, some vc, some vd =>
              parseStringBody fuel
                (Char.ofNat (((va * 16 + vb) * 16 + vc) * 16 + vd) :: acc) t3
            | _, _, _, _ => none
          | _ => none
        else none
    else parseStringBody fuel (c :: acc) t

/-- Digits to a natural number. -/
def digitsToNat (ds : List Char) : ℕ :=
  ds.foldl (fun a c => a * 10 + (c.toNat - 48)) 0

/-- Parse an optional JSON fraction part. -/
def parseFrac (l : List Char) : Option (ℚ × List Char) :=
  match l with
  | '.' :: t =>
    let p := t.span Char.isDigit
    if p.1.isEmpty then none
    else some ((digitsToNat p.1 : ℚ) / ((10 : ℚ) ^ p.1.length), p.2)
  | _ => some (0, l)

/-- Parse the digits of a JSON exponent after `e`/`E`. -/
def parseExpAfter (l : List Char) : Option (ℤ × List Char) :=
  let st : ℤ × List Char := match l with
    | '+' :: t => (1, t)
    | '-' :: t => (-1, t)
    | _ => (1, l)
  let p := st.2.span Char.isDigit
  if p.1.isEmpty then none else some (st.1 * (digitsToNat p.1 : ℤ), p.2)

/-- Parse an optional JSON exponent part. -/
def parseExp (l : List Char) : Option (ℤ × List Char) :=
  match l with
  | 'e' :: t => parseExpAfter t
  | 'E' :: t => parseExpAfter t
  | _ => some (0, l)

/-- Parse a JSON number. -/
def parseNumber (l : List Char) : Option (ℚ × List Char) :=
  let st : Bool × List Char := match l with
    | '-' :: t => (true, t)
    | _ => (false, l)
  let ip := st.2.span Char.isDigit
  if ip.1.isEmpty then none
  else
    match parseFrac ip.2 with
    | none => none
    | some (fv, l2) =>
      match parseExp l2 with
      | none => none
      | some (e, l3) =>
        let v := ((digitsToNat ip.1 : ℚ) + fv) * (10 : ℚ) ^ e
        some (if st.1 then -v else v, l3)

mutual

/-- Parse one JSON value (fuelled recursive descent). -/
def parseValue : Nat → List Char → Option (JsValue × List Char)
  | 0, _ => none
  | fuel + 1, l =>
    match skipWs l with
    | [] => none
    | '{' :: t => (parseMembers fuel t).map fun p => (JsValue.obj p.1, p.2)
    | '[' :: t => (parseElems fuel t).map fun p => (JsValue.arr p.1, p.2)
    | '"' :: t => (parseStringBody (t.length + 1) [] t).map fun p => (JsValue.str p.1, p.2)
    | c :: t =>
      if listStartsWith (c :: t) "true".data then some (.bool true, (c :: t).drop 4)
      else if listStartsWith (c :: t) "false".data then some (.bool false, (c :: t).drop 5)
      else if listStartsWith (c :: t) "null".data then some (.null, (c :: t).drop 4)
      else (parseNumber (c :: t)).map fun p => (JsValue.num p.1, p.2)

/-- Parse JSON object members after `{`. -/
def parseMembers : Nat → List Char → Option (List (String × JsValue) × List Char)
  | 0, _ => none
  | fuel + 1, l =>
    match skipWs l with
    | '}' :: t => some ([], t)
    | '"' :: t =>
      match parseStringBody (t.length + 1) [] t with
      | none => none
      | some (key, r1) =>
        match skipWs r1 with
        | ':' :: r2 =>
          match parseValue fuel r2 with
          | none => none
          | some (v, r3) =>
            match skipWs r3 with
            | ',' :: r4 => (parseMembers fuel r4).map fun p => ((key, v) :: p.1, p.2)
            | '}' :: r4 => some ([(key, v)], r4)
            | _ => none
        | _ => none
    | _ => none

/-- Parse JSON array elements after `[`. -/
def parseElems : Nat → List Char → Option (List JsValue × List Char)
  | 0, _ => none
  | fuel + 1, l =>
    match skipWs l with
    | ']' :: t => some ([], t)
    | _ =>
      match parseValue fuel l with
      | none => none
      | some (v, r1) =>
        match skipWs r1 with
        | ',' :: r2 => (parseElems fuel r2).map fun p => (v :: p.1, p.2)
        | ']' :: r2 => some ([v], r2)
        | _ => none

end

/-- `JSON.parse`: parse a complete JSON document. -/
def parseJson (s : String) : Option JsValue :=
  match parseValue (s.data.length + 1) s.data with
  | some (v, rest) => if (skipWs rest).isEmpty then some v else none
  | none => none

/-- The regex `\{[\s\S]*\}`: greedy match from the first `{` to the last
`}`, when one follows the other. -/
def extractJsonBlock (s : String) : Option String :=
  match s.data.findIdx? (fun c => c = '{'), s.data.reverse.findIdx? (fun c => c = '}') with
  | some i, some k =>
    let j := s.data.length - 1 - k
    if i < j then some (String.mk ((s.data.drop i).take (j - i + 1))) else none
  | _, _ => none

/-- Member lookup with JS `JSON.parse` duplicate-key semantics (last wins). -/
def objGet (members : List (String × JsValue)) (key : String) : Option JsValue :=
  (members.reverse.find? fun kv => kv.1 == key).map Prod.snd

/-- JS truthiness of a parsed JSON value. -/
def jsTruthyVal : JsValue → Bool
  | .null => false
  | .bool b => b
  | .num q => decide (q ≠ 0)
  | .str s => !s.isEmpty
  | .arr _ => true
  | .obj _ => true

/-- JS string coercion of a parsed JSON value (as used after `||`). -/
def jsDisplay : JsValue → String
  | .null => "null"
  | .bool b => if b then "true" else "false"
  | .num q => toString q
  | .str s => s
  | .arr _ => ""
  | .obj _ => "[object Object]"

/-- JS `v || dflt` for an optional JSON value, coerced to a string. -/
def jsOrVal (v : Option JsValue) (dflt : String) : String :=
  match v with
  | some x => if jsTruthyVal x then jsDisplay x else dflt
  | none => dflt

/-- One element of `parsed.scenes.map(...)`: builds a scene with id/text/
visualDescription fallbacks; a `null` element makes the property access
throw (`none`), any other non-object yields `undefined` properties and so
all fallbacks. -/
def sceneFromJson (index : Nat) : JsValue → Option ScriptScene
  | .null => none
  | .obj kvs =>
    some ⟨jsOrVal (objGet kvs "id") ("scene_" ++ toString (index + 1)),
      jsOrVal (objGet kvs "text") "",
      jsOrVal (objGet kvs "visualDescription") ""⟩
  | _ => some ⟨"scene_" ++ toString (index + 1), "", ""⟩

/-- A thrown JS error object (its class name and message): the source only
ever constructs plain `Error` instances. -/
structure JsError where
  name : String
  message : String
deriving DecidableEq

/-- `generateScript` (project.controller.ts), from the backend's response
text onward: extract a JSON block, parse it, and map `parsed.scenes`; any
failure in that pipeline lands in the surrounding `catch`, which rethrows
a plain `Error("Failed to generate script")`. -/
def generateScriptFromResponse (responseText : String) : Except JsError Script :=
  let generic : Except JsError Script := .error ⟨"Error", "Failed to generate script"⟩
  match extractJsonBlock responseText with
  | none => generic
  | some block =>
    match parseJson block with
    | none => generic
    | some parsed =>
      match parsed with
      | .obj kvs =>
        match objGet kvs "scenes" with
        | some (.arr elems) =>
          match elems.enum.mapM (fun p => sceneFromJson p.1 p.2) with
          | some scenes =>
            .ok ⟨jsOrVal (objGet kvs "fullText")
              (String.intercalate " " (scenes.map ScriptScene.text)), scenes⟩
          | none => generic
        | _ => generic
      | _ => generic

/-- "A structured scenes array can be parsed from the response": the happy
path of the parsing pipeline up to locating the array. -/
def parseScenesArray (responseText : String) : Option (List JsValue) :=
  (extractJsonBlock responseText).bind fun block =>
    (parseJson block).bind fun parsed =>
      match parsed with
      | .obj kvs =>
        match objGet kvs "scenes" with
        | some (.arr elems) => some elems
        | _ => none
      | _ => none

/-- C10: `getAudioDuration` called without word-level or segment-level timing
data returns the constant 60 for every audio path, and `uploadVoiceover`
invokes it exactly that way, so the stored voiceover duration and the
timeline's total duration are 60 regardless of the audio content. -/
theorem c10_upload_duration_constant (p : Project) (filePath q : String)
    (script : Script) (hs : p.script = some script) (hne : script.scenes ≠ []) :
    getAudioDuration q none none = 60 ∧
    (uploadVoiceover p (some filePath)).2.voiceover = some ⟨filePath, 60⟩ ∧
    (uploadVoiceover p (some filePath)).2.timeline.map Timeline.totalDuration =
      some 60 := by
  refine ⟨rfl, ?_, ?_⟩ <;>
    simp [uploadVoiceover, hs, List.isEmpty_iff, hne, getAudioDuration]

/-- C10 witness: a concrete one-scene project. -/
theorem c10_witness :
    getAudioDuration "audio.mp3" none none = 60 ∧
    (uploadVoiceover
      ⟨"t", "idea", Status.draft, some ⟨"full", [⟨"s1", "hello world", "vis"⟩]⟩,
        none, none, none, none, AspectRatio.r9x16⟩
      (some "up.mp3")).2.voiceover = some ⟨"up.mp3", 60⟩ ∧
    (uploadVoiceover
      ⟨"t", "idea", Status.draft, some ⟨"full", [⟨"s1", "hello world", "vis"⟩]⟩,
        none, none, none, none, AspectRatio.r9x16⟩
      (some "up.mp3")).2.timeline.map Timeline.totalDuration = some 60 :=
  c10_upload_duration_constant
    ⟨"t", "idea", Status.draft, some ⟨"full", [⟨"s1", "hello world", "vis"⟩]⟩,
      none, none, none, none, AspectRatio.r9x16⟩
    "up.mp3" "audio.mp3" ⟨"full", [⟨"s1", "hello world", "vis"⟩]⟩ rfl (by decide)

/-- C4 counterexample: on the malformed backend response "hello" (no JSON
block at all) `generateScript` raises a plain `Error` whose class name is
`"Error"`, not a typed `GenerationFormatError` (no such error class exists
anywhere in the source). -/
theorem c4_counterexample :
    generateScriptFromResponse "hello" =
      .error ⟨"Error", "Failed to generate script"⟩ ∧
    ("Error" : String) ≠ "GenerationFormatError" :=
  ⟨rfl, by decide⟩

/-- C4 (amended): for every backend response from which no structured scenes
array can be parsed, `generateScript` raises the generic
`Error("Failed to generate script")` — an untyped error, not a
`GenerationFormatError` — rather than returning partial data. -/
theorem c4_amended (responseText : String)
    (h : parseScenesArray responseText = none) :
    generateScriptFromResponse responseText =
      .error ⟨"Error", "Failed to generate script"⟩ := by
  unfold generateScriptFromResponse
  unfold parseScenesArray at h
  rcases hE : extractJsonBlock responseText with _ | block
  · simp [hE]
  · rw [hE] at h
    simp only [Option.some_bind] at h
    rcases hP : parseJson block with _ | parsed
    · simp [hE, hP]
    · rw [hP] at h
      simp only [Option.some_bind] at h
      cases parsed with
      | obj kvs =>
        dsimp only at h
        rcases hG : objGet kvs "scenes" with _ | v
        · simp [hE, hP, hG]
        · rw [hG] at h
          cases v with
          | arr elems => simp at h
          | null => simp [hE, hP, hG]
          | bool b => simp [hE, hP, hG]
          | num q => simp [hE, hP, hG]
          | str s => simp [hE, hP, hG]
          | obj kvs2 => simp [hE, hP, hG]
      | null => simp [hE, hP]
      | bool b => simp [hE, hP]
      | num q => simp [hE, hP]
      | str s => simp [hE, hP]
      | arr elems => simp [hE, hP]

/-- C4 witness: a parse-failing concrete response. -/
theorem c4_witness :
    generateScriptFromResponse "no json here" =
      .error ⟨"Error", "Failed to generate script"⟩ :=
  c4_amended "no json here" rfl

/-- C9: in both assembler revisions, after the encoder promise settles —
success, non-zero exit, or failure to start — the temporary artifact
created for the run (the subtitle file, resp. the concat manifest) is
deleted again: for a fresh temp name the temp-file ledger ends exactly as
it began, and nothing else is touched. -/
theorem c9_temp_cleanup :
    (∀ (fs : String → FileKind) (temp0 : List String) (uuid : String)
        (enc : EncoderOutcome) (opts : AssembleOptions),
      pathJoin (dirname opts.outputPath) ("subs-" ++ uuid ++ ".srt") ∉ temp0 →
      (assembleVideoWithFfmpeg fs temp0 uuid enc opts).tempFiles = temp0) ∧
    (∀ (fs : String → FileKind) (temp0 : List String) (uuid : String)
        (enc : EncoderOutcome) (scenes : List LegacyScene) (vp op : String),
      pathJoin (dirname op) ("concat-" ++ uuid ++ ".txt") ∉ temp0 →
      (assembleVideoWithFfmpegLegacy fs temp0 uuid enc scenes vp op).tempFiles =
        temp0) := by
  constructor
  · intro fs temp0 uuid enc opts _hfresh
    unfold assembleVideoWithFfmpeg
    split
    · rfl
    · split
      · rfl
      · split
        · rfl
        · simp
  · intro fs temp0 uuid enc scenes vp op _hfresh
    unfold assembleVideoWithFfmpegLegacy
    split
    · rfl
    · split
      · rfl
      · split
        · rfl
        · simp

/-- C9 witness: concrete runs of both assemblers on each encoder outcome. -/
theorem c9_witness :
    (assembleVideoWithFfmpeg (fun _ => .file) ["old.tmp"] "u1" (.close 0 "")
      ⟨[⟨"img.png", none, 2, "txt", 0, 2, []⟩], "v.mp3", "o/out.mp4", .r9x16⟩).tempFiles
      = ["old.tmp"] ∧
    (assembleVideoWithFfmpeg (fun _ => .file) ["old.tmp"] "u1" (.close 1 "boom")
      ⟨[⟨"img.png", none, 2, "txt", 0, 2, []⟩], "v.mp3", "o/out.mp4", .r9x16⟩).tempFiles
      = ["old.tmp"] ∧
    (assembleVideoWithFfmpeg (fun _ => .file) ["old.tmp"] "u1" (.errorEvent true "")
      ⟨[⟨"img.png", none, 2, "txt", 0, 2, []⟩], "v.mp3", "o/out.mp4", .r9x16⟩).tempFiles
      = ["old.tmp"] ∧
    (assembleVideoWithFfmpegLegacy (fun _ => .file) ["old.tmp"] "u1" (.close 1 "x")
      [⟨"img.png", 2⟩] "v.mp3" "o/out.mp4").tempFiles = ["old.tmp"] :=
  ⟨c9_temp_cleanup.1 _ _ _ _ _ (by decide),
    c9_temp_cleanup.1 _ _ _ _ _ (by decide),
    c9_temp_cleanup.1 _ _ _ _ _ (by decide),
    c9_temp_cleanup.2 _ _ _ _ _ _ _ (by decide)⟩

/-- C2 (amended): `generateImages` on a project whose timeline is missing or
has no scenes is rejected without mutating the persisted project (in
particular its status); `generateVideo` on a project without a voiceover
file path is rejected with "Voiceover is required before generating video"
without mutation; and `generateVideo` on a project **that has a voiceover
file** where some scene lacks an image is rejected with the message naming
the count of missing scenes, without mutation. (When both the voiceover and
scene images are missing, the voiceover check fires first, so the
missing-images message requires the voiceover precondition to hold.) -/
theorem c2_precondition_enforcement :
    (∀ (p : Project) (keys : Option ApiKeys) (provider : String)
        (po : Except String (List (String × String)))
        (io : Except String (List ImageResult)),
      (p.timeline = none ∨ p.timeline.map Timeline.scenes = some []) →
      generateImages p keys provider po io =
        (.badRequest "Timeline must exist before generating images", p)) ∧
    (∀ (p : Project) (keys : Option ApiKeys) (ho : List String)
        (fs : String → FileKind) (t0 : List String) (uuid : String)
        (enc : EncoderOutcome) (od : String),
      strTruthy (p.voiceover.map Voiceover.filePath) = false →
      generateVideo p keys ho fs t0 uuid enc od =
        (.badRequest "Voiceover is required before generating video", p)) ∧
    (∀ (p : Project) (keys : Option ApiKeys) (ho : List String)
        (fs : String → FileKind) (t0 : List String) (uuid : String)
        (enc : EncoderOutcome) (od : String) (tl : Timeline),
      strTruthy (p.voiceover.map Voiceover.filePath) = true →
      p.timeline = some tl →
      (tl.scenes.filter fun s => !strTruthy s.imagePath) ≠ [] →
      generateVideo p keys ho fs t0 uuid enc od =
        (.badRequest
          (toString (tl.scenes.filter fun s => !strTruthy s.imagePath).length ++
            " scene(s) are missing images"), p)) := by
  refine ⟨?_, ?_, ?_⟩
  · intro p keys provider po io h
    unfold generateImages
    rcases htl : p.timeline with _ | tl
    · rfl
    · rcases h with h | h
      · rw [htl] at h
        exact absurd h (by simp)
      · rw [htl] at h
        replace h : tl.scenes = [] := by
          simpa using h
        simp [h]
  · intro p keys ho fs t0 uuid enc od h
    unfold generateVideo
    simp [h]
  · intro p keys ho fs t0 uuid enc od tl h1 htl hmiss
    have hne : tl.scenes ≠ [] := by
      intro he
      exact hmiss (by simp [he])
    have h2 : tl.scenes.isEmpty = false := by
      simpa [List.isEmpty_iff] using hne
    have h3 : (tl.scenes.filter fun s => !strTruthy s.imagePath).isEmpty = false := by
      simpa [List.isEmpty_iff] using hmiss
    unfold generateVideo
    simp [h1, htl, h2, h3]

/-- C2 counterexample: on a project missing both the voiceover and the scene
images, `generateVideo` is rejected with the voiceover message — the claim's
unconditional "some scene lacks imagePath ⇒ message names the count" fails
at this input. -/
theorem c2_counterexample :
    (generateVideo
      ⟨"t", "i", Status.draft, none, none, none,
        some ⟨10, [⟨"s1", 0, 0, 5, 5, "txt", "", "p", none, "uploaded", none, []⟩]⟩,
        none, AspectRatio.r9x16⟩
      none [] (fun _ => FileKind.file) [] "u" (.close 0 "") "out").1 =
      .badRequest "Voiceover is required before generating video" ∧
    ("Voiceover is required before generating video" : String) ≠
      "1 scene(s) are missing images" := by
  exact ⟨rfl, by decide⟩

/-- C2 witness: the three rejection branches at concrete projects. -/
theorem c2_witness :
    generateImages
      ⟨"t", "i", Status.draft, none, none, none, none, none, AspectRatio.r9x16⟩
      none "pexels" (.ok []) (.ok []) =
      (.badRequest "Timeline must exist before generating images",
        ⟨"t", "i", Status.draft, none, none, none, none, none, AspectRatio.r9x16⟩) ∧
    generateVideo
      ⟨"t", "i", Status.draft, none, none, none, none, none, AspectRatio.r9x16⟩
      none [] (fun _ => FileKind.file) [] "u" (.close 0 "") "out" =
      (.badRequest "Voiceover is required before generating video",
        ⟨"t", "i", Status.draft, none, none, none, none, none, AspectRatio.r9x16⟩) ∧
    generateVideo
      ⟨"t", "i", Status.draft, none, some ⟨"v.mp3", 60⟩, none,
        some ⟨10, [⟨"s1", 0, 0, 5, 5, "txt", "", "p", none, "uploaded", none, []⟩]⟩,
        none, AspectRatio.r9x16⟩
      none [] (fun _ => FileKind.file) [] "u" (.close 0 "") "out" =
      (.badRequest
        (toString ([⟨"s1", 0, 0, 5, 5, "txt", "", "p", none, "uploaded", none,
          []⟩].filter fun s : TimelineScene => !strTruthy s.imagePath).length ++
          " scene(s) are missing images"),
        ⟨"t", "i", Status.draft, none, some ⟨"v.mp3", 60⟩, none,
          some ⟨10, [⟨"s1", 0, 0, 5, 5, "txt", "", "p", none, "uploaded", none, []⟩]⟩,
          none, AspectRatio.r9x16⟩) :=
  ⟨c2_precondition_enforcement.1 _ none "pexels" (.ok []) (.ok []) (Or.inl rfl),
    c2_precondition_enforcement.2.1
      ⟨"t", "i", Status.draft, none, none, none, none, none, AspectRatio.r9x16⟩
      none [] _ [] "u" (.close 0 "") "out" rfl,
    c2_precondition_enforcement.2.2
      ⟨"t", "i", Status.draft, none, some ⟨"v.mp3", 60⟩, none,
        some ⟨10, [⟨"s1", 0, 0, 5, 5, "txt", "", "p", none, "uploaded", none, []⟩]⟩,
        none, AspectRatio.r9x16⟩
      none [] _ [] "u" (.close 0 "") "out" _ (by decide) rfl (by decide)⟩

theorem ensureFileExists_ok_iff (fs : String → FileKind) (path label : String) :
    ensureFileExists fs path label = .ok () ↔ fs path = .file := by
  cases h : fs path <;> simp [ensureFileExists, h]

theorem ensureFileExists_error_of_ne (fs : String → FileKind) (path label : String)
    (h : fs path ≠ .file) :
    ensureFileExists fs path label = .error (label ++ " not found: " ++ path) := by
  cases hf : fs path <;> simp [ensureFileExists, hf] <;> exact absurd hf h

theorem checkSceneFiles_ok_iff (fs : String → FileKind) (scenes : List AssembleScene) :
    checkSceneFiles fs scenes = .ok () ↔
      ∀ sc ∈ scenes, fs (sceneReq sc).2 = .file := by
  induction scenes with
  | nil => simp [checkSceneFiles]
  | cons sc rest ih =>
    by_cases h : fs (sceneReq sc).2 = .file
    · have he : ensureFileExists fs (sceneReq sc).2 (sceneReq sc).1 = .ok () :=
        (ensureFileExists_ok_iff fs _ _).mpr h
      simp [checkSceneFiles, he, ih, h]
    · have he := ensureFileExists_error_of_ne fs (sceneReq sc).2 (sceneReq sc).1 h
      simp [checkSceneFiles, he, h]

theorem checkSceneFiles_error_exists (fs : String → FileKind)
    (scenes : List AssembleScene)
    (h : ∃ sc ∈ scenes, fs (sceneReq sc).2 ≠ .file) :
    ∃ sc ∈ scenes, fs (sceneReq sc).2 ≠ .file ∧
      checkSceneFiles fs scenes =
        .error ((sceneReq sc).1 ++ " not found: " ++ (sceneReq sc).2) := by
  induction scenes with
  | nil => simp at h
  | cons sc rest ih =>
    by_cases hsc : fs (sceneReq sc).2 = .file
    · have he : ensureFileExists fs (sceneReq sc).2 (sceneReq sc).1 = .ok () :=
        (ensureFileExists_ok_iff fs _ _).mpr hsc
      have hrest : ∃ x ∈ rest, fs (sceneReq x).2 ≠ .file := by
        rcases h with ⟨x, hx, hxf⟩
        rcases List.mem_cons.mp hx with rfl | hx2
        · exact absurd hsc hxf
        · exact ⟨x, hx2, hxf⟩
      rcases ih hrest with ⟨x, hx, hxf, hcx⟩
      exact ⟨x, List.mem_cons_of_mem _ hx, hxf, by simp [checkSceneFiles, he, hcx]⟩
    · have he := ensureFileExists_error_of_ne fs (sceneReq sc).2 (sceneReq sc).1 hsc
      exact ⟨sc, List.mem_cons_self _ _, hsc, by simp [checkSceneFiles, he]⟩

/-- C8: before the encoder is spawned, `assembleVideoWithFfmpeg` verifies the
voiceover file and, for every scene, its (truthy) `videoPath` or else its
`imagePath`: the encoder is spawned exactly when all those files exist, and
when any is missing the call fails with an error naming that file's label
and path and the encoder is never invoked. -/
theorem requiredFiles_all_iff (fs : String → FileKind) (opts : AssembleOptions) :
    (∀ lp ∈ requiredFiles opts, fs lp.2 = .file) ↔
      (fs opts.voiceoverPath = .file ∧
        ∀ sc ∈ opts.scenes, fs (sceneReq sc).2 = .file) := by
  simp [requiredFiles]

theorem requiredFiles_mem_scene (opts : AssembleOptions) {sc : AssembleScene}
    (h : sc ∈ opts.scenes) : sceneReq sc ∈ requiredFiles opts := by
  simp only [requiredFiles, List.mem_cons]
  exact Or.inr (List.mem_map_of_mem _ h)

/-- C8: before the encoder is spawned, `assembleVideoWithFfmpeg` verifies the
voiceover file and, for every scene, its (truthy) `videoPath` or else its
`imagePath`: the encoder is spawned exactly when all those files exist, and
when any is missing the call fails with an error naming that file's label
and path, and the encoder is never invoked. -/
theorem c8_fail_fast (fs : String → FileKind) (temp0 : List String) (uuid : String)
    (enc : EncoderOutcome) (opts : AssembleOptions) (hne : opts.scenes ≠ []) :
    ((assembleVideoWithFfmpeg fs temp0 uuid enc opts).spawned = true ↔
      ∀ lp ∈ requiredFiles opts, fs lp.2 = .file) ∧
    ((∃ lp ∈ requiredFiles opts, fs lp.2 ≠ .file) →
      (assembleVideoWithFfmpeg fs temp0 uuid enc opts).spawned = false ∧
      ∃ lp ∈ requiredFiles opts, fs lp.2 ≠ .file ∧
        (assembleVideoWithFfmpeg fs temp0 uuid enc opts).result =
          .error (lp.1 ++ " not found: " ++ lp.2)) := by
  have hni : opts.scenes.isEmpty = false := by
    simpa [List.isEmpty_iff] using hne
  by_cases hvo : fs opts.voiceoverPath = .file
  · have hev : ensureFileExists fs opts.voiceoverPath "Voiceover file" = .ok () :=
      (ensureFileExists_ok_iff fs _ _).mpr hvo
    by_cases hsc : ∀ sc ∈ opts.scenes, fs (sceneReq sc).2 = .file
    · have hck : checkSceneFiles fs opts.scenes = .ok () :=
        (checkSceneFiles_ok_iff fs _).mpr hsc
      have hsp : (assembleVideoWithFfmpeg fs temp0 uuid enc opts).spawned = true := by
        simp [assembleVideoWithFfmpeg, hni, hev, hck]
      constructor
      · rw [hsp, requiredFiles_all_iff]
        exact iff_of_true rfl ⟨hvo, hsc⟩
      · intro hex
        exfalso
        rcases hex with ⟨lp, hlp, hf⟩
        exact hf ((requiredFiles_all_iff fs opts).mpr ⟨hvo, hsc⟩ lp hlp)
    · push_neg at hsc
      rcases checkSceneFiles_error_exists fs opts.scenes hsc with ⟨x, hx, hxf, hcx⟩
      have hsp : (assembleVideoWithFfmpeg fs temp0 uuid enc opts).spawned = false := by
        simp [assembleVideoWithFfmpeg, hni, hev, hcx]
      have hres : (assembleVideoWithFfmpeg fs temp0 uuid enc opts).result =
          .error ((sceneReq x).1 ++ " not found: " ++ (sceneReq x).2) := by
        simp [assembleVideoWithFfmpeg, hni, hev, hcx]
      constructor
      · rw [hsp, requiredFiles_all_iff]
        refine iff_of_false (by simp) ?_
        intro hall
        exact hxf (hall.2 x hx)
      · intro _hex
        exact ⟨hsp, sceneReq x, requiredFiles_mem_scene opts hx, hxf, hres⟩
  · have hev := ensureFileExists_error_of_ne fs opts.voiceoverPath "Voiceover file" hvo
    have hsp : (assembleVideoWithFfmpeg fs temp0 uuid enc opts).spawned = false := by
      simp [assembleVideoWithFfmpeg, hni, hev]
    have hres : (assembleVideoWithFfmpeg fs temp0 uuid enc opts).result =
        .error ("Voiceover file" ++ " not found: " ++ opts.voiceoverPath) := by
      simp [assembleVideoWithFfmpeg, hni, hev]
    constructor
    · rw [hsp, requiredFiles_all_iff]
      exact iff_of_false (by simp) fun hall => hvo hall.1
    · intro _hex
      exact ⟨hsp, ("Voiceover file", opts.voiceoverPath), by simp [requiredFiles],
        hvo, hres⟩

/-- C8 witness: a concrete run where the scene image is missing. -/
theorem c8_witness :
    (assembleVideoWithFfmpeg (fun p => if p == "v.mp3" then .file else .missing)
      [] "u" (.close 0 "")
      ⟨[⟨"img1.png", none, 2, "t", 0, 2, []⟩], "v.mp3", "o/out.mp4",
        .r9x16⟩).spawned = false ∧
    ∃ lp ∈ requiredFiles
      ⟨[⟨"img1.png", none, 2, "t", 0, 2, []⟩], "v.mp3", "o/out.mp4", .r9x16⟩,
      (fun p => if p == "v.mp3" then FileKind.file else FileKind.missing) lp.2 ≠
        .file ∧
      (assembleVideoWithFfmpeg (fun p => if p == "v.mp3" then .file else .missing)
        [] "u" (.close 0 "")
        ⟨[⟨"img1.png", none, 2, "t", 0, 2, []⟩], "v.mp3", "o/out.mp4",
          .r9x16⟩).result = .error (lp.1 ++ " not found: " ++ lp.2) :=
  (c8_fail_fast (fun p => if p == "v.mp3" then .file else .missing) [] "u"
    (.close 0 "")
    ⟨[⟨"img1.png", none, 2, "t", 0, 2, []⟩], "v.mp3", "o/out.mp4", .r9x16⟩
    (by decide)).2 (by decide)

theorem updateFirst_ids (l : List TimelineScene) (id : String)
    (f : TimelineScene → TimelineScene) (hf : ∀ s, (f s).id = s.id) :
    (updateFirst l id f).map TimelineScene.id = l.map TimelineScene.id := by
  induction l with
  | nil => rfl
  | cons s rest ih =>
    by_cases h : (s.id == id) = true
    · simp [updateFirst, h, hf]
    · simp [updateFirst, h, ih]

theorem find?_id_isSome_iff (l : List TimelineScene) (x : String) :
    ((l.find? fun s => s.id == x).isSome = true) ↔ x ∈ l.map TimelineScene.id := by
  rw [List.find?_isSome]
  constructor
  · rintro ⟨s, hs, hsq⟩
    have : s.id = x := by simpa using hsq
    exact this ▸ List.mem_map_of_mem _ hs
  · intro hx
    rcases List.mem_map.mp hx with ⟨s, hs, rfl⟩
    exact ⟨s, hs, by simp⟩

theorem find?_id_isSome_congr (l1 l2 : List TimelineScene) (x : String)
    (h : l1.map TimelineScene.id = l2.map TimelineScene.id) :
    (l1.find? fun s => s.id == x).isSome = (l2.find? fun s => s.id == x).isSome := by
  have h1 := find?_id_isSome_iff l1 x
  have h2 := find?_id_isSome_iff l2 x
  rw [h] at h1
  cases hb : (l2.find? fun s => s.id == x).isSome
  · rw [← h2] at h1
    rw [hb] at h1
    by_contra hcon
    simp only [Bool.not_eq_false] at hcon
    exact absurd (h1.mp hcon) (by simp)
  · exact h1.mpr (h2.mp hb)

/-- The success condition counted by the update loop of the endpoint. -/
def videoResultCounted (scenes0 : List TimelineScene) (r : VideoResult) : Bool :=
  ((scenes0.find? fun s => s.id == r.sceneId).isSome) && r.success &&
    !r.videoPath.isEmpty

theorem applyVideoResults_go (results : List VideoResult)
    (scenes scenes0 : List TimelineScene) (c0 : Nat)
    (hids : scenes.map TimelineScene.id = scenes0.map TimelineScene.id) :
    (results.foldl (fun acc r =>
      if ((acc.1.find? fun s => s.id == r.sceneId).isSome) && r.success &&
          !r.videoPath.isEmpty then
        (updateFirst acc.1 r.sceneId fun s => { s with videoPath := some r.videoPath },
          acc.2 + 1)
      else acc) (scenes, c0)).2 =
      c0 + results.countP (videoResultCounted scenes0) := by
  induction results generalizing scenes c0 with
  | nil => simp
  | cons r rest ih =>
    have hcond : ((scenes.find? fun s => s.id == r.sceneId).isSome) =
        ((scenes0.find? fun s => s.id == r.sceneId).isSome) :=
      find?_id_isSome_congr scenes scenes0 r.sceneId hids
    have hc2 : (((scenes.find? fun s => s.id == r.sceneId).isSome) && r.success &&
        !r.videoPath.isEmpty) = videoResultCounted scenes0 r := by
      unfold videoResultCounted
      rw [hcond]
    cases hcf : videoResultCounted scenes0 r with
    | true =>
      rw [hcf] at hc2
      have hids2 : (updateFirst scenes r.sceneId
          (fun s => { s with videoPath := some r.videoPath })).map TimelineScene.id =
          scenes0.map TimelineScene.id := by
        rw [updateFirst_ids scenes r.sceneId
          (fun s => { s with videoPath := some r.videoPath }) (fun s => rfl)]
        exact hids
      simp only [List.foldl_cons, hc2, if_pos]
      rw [ih _ _ hids2, List.countP_cons, hcf]
      simp
      omega
    | false =>
      rw [hcf] at hc2
      simp only [List.foldl_cons, hc2, Bool.false_eq_true, if_false]
      rw [ih _ _ hids, List.countP_cons, hcf]
      simp

theorem applyVideoResults_snd (scenes : List TimelineScene)
    (results : List VideoResult) :
    (applyVideoResults scenes results).2 =
      results.countP (videoResultCounted scenes) := by
  have := applyVideoResults_go results scenes scenes 0 rfl
  simpa [applyVideoResults] using this

theorem pathJoin_isEmpty (a b : String) : (pathJoin a b).isEmpty = false := by
  have hd : (pathJoin a b).data = a.data ++ '/' :: b.data := by
    simp [pathJoin, String.data_append]
  cases h : (pathJoin a b).isEmpty
  · rfl
  · exfalso
    have he : pathJoin a b = "" := (String.isEmpty_iff _).mp h
    rw [he] at hd
    have : ("" : String).data = [] := rfl
    rw [this] at hd
    exact absurd hd.symm (List.append_ne_nil_of_right_ne_nil _ (by simp))


theorem serviceResults_length (scenes : List SceneForVideo) (dir : String)
    (outcomes : Nat → Option String) (uuid : Nat → String) :
    (serviceResults scenes dir outcomes uuid).length = scenes.length := by
  simp [serviceResults]

theorem mem_of_mem_enum {α : Type} {l : List α} {q : ℕ × α} (h : q ∈ l.enum) :
    q.2 ∈ l := by
  have hg := List.mem_enum_iff_get?.mp h
  exact List.get?_mem hg

theorem serviceResults_countP (scenes : List SceneForVideo) (dir : String)
    (outcomes : Nat → Option String) (uuid : Nat → String)
    (scenes0 : List TimelineScene)
    (hmem : ∀ sc ∈ scenes, sc.sceneId ∈ scenes0.map TimelineScene.id) :
    (serviceResults scenes dir outcomes uuid).countP (videoResultCounted scenes0) =
      scenes.enum.countP fun q => (outcomes q.1).isNone := by
  unfold serviceResults
  rw [List.countP_map]
  apply List.countP_congr
  intro q hq
  have hsc : q.2 ∈ scenes := mem_of_mem_enum hq
  have hfind : ((scenes0.find? fun s => s.id == q.2.sceneId).isSome) = true :=
    (find?_id_isSome_iff scenes0 q.2.sceneId).mpr (hmem q.2 hsc)
  cases ho : outcomes q.1 with
  | none =>
    simp [Function.comp, ho, videoResultCounted, pathJoin_isEmpty, hfind]
  | some e =>
    simp [Function.comp, ho, videoResultCounted]

theorem countP_isNone_pos_iff (l : List SceneForVideo)
    (outcomes : Nat → Option String) :
    (0 < l.enum.countP fun q => (outcomes q.1).isNone) ↔
      ∃ i, i < l.length ∧ outcomes i = none := by
  rw [List.countP_pos]
  constructor
  · rintro ⟨q, hq, hqn⟩
    have hg := List.mem_enum_iff_get?.mp hq
    have hlt : q.1 < l.length := by
      rcases List.get?_eq_some.mp hg with ⟨h, _⟩
      exact h
    refine ⟨q.1, hlt, ?_⟩
    simpa using hqn
  · rintro ⟨i, hi, hio⟩
    refine ⟨(i, l.get ⟨i, hi⟩), ?_, by simp [hio]⟩
    rw [List.mem_enum_iff_get?]
    exact List.get?_eq_get hi

theorem scenesForVideoOf_mem_ids (tl : Timeline) :
    ∀ sc ∈ scenesForVideoOf tl, sc.sceneId ∈ tl.scenes.map TimelineScene.id := by
  intro sc hsc
  unfold scenesForVideoOf at hsc
  rcases List.mem_map.mp hsc with ⟨s, hs, rfl⟩
  have hs2 : s ∈ (tl.scenes.filter fun s => strTruthy s.imagePath) :=
    (List.mem_mergeSort).mp hs
  exact List.mem_map_of_mem _ (List.mem_filter.mp hs2).1

/-- C3: the AI-video service returns exactly one result per input scene, in
order and keyed by sceneId, with a success flag and, on failure, that
scene's own error message — one scene's failure never aborts the others —
and the endpoint persists `videos-ready` exactly when at least one scene
succeeded, otherwise the prior status (never `failed`). -/
theorem c3_partial_failure :
    (∀ (scenes : List SceneForVideo) (tok env : Option String) (dir : String)
        (outcomes : Nat → Option String) (uuid : Nat → String),
      strTruthy (jsOrStr tok env) = true →
      ∃ results, generateSceneVideos scenes tok env dir outcomes uuid = .ok results ∧
        results.length = scenes.length ∧
        ∀ i (hi : i < results.length) (hi2 : i < scenes.length),
          (results.get ⟨i, hi⟩).sceneId = (scenes.get ⟨i, hi2⟩).sceneId ∧
          ((results.get ⟨i, hi⟩).success = true ↔ outcomes i = none) ∧
          (∀ e, outcomes i = some e → (results.get ⟨i, hi⟩).error = some e)) ∧
    (∀ (p : Project) (apiKeys : Option ApiKeys) (envToken : Option String)
        (outputDir : String) (outcomes : Nat → Option String) (uuid : Nat → String)
        (tl : Timeline),
      p.timeline = some tl → tl.scenes ≠ [] →
      (∀ s ∈ tl.scenes, strTruthy s.imagePath = true) →
      strTruthy (jsOrStr (apiKeys.bind ApiKeys.replicate) envToken) = true →
      ((∃ i, i < tl.scenes.length ∧ outcomes i = none) →
        (generateSceneVideosEndpoint p apiKeys envToken outputDir outcomes
          uuid).2.status = .videosReady) ∧
      ((∀ i, i < tl.scenes.length → outcomes i ≠ none) →
        (generateSceneVideosEndpoint p apiKeys envToken outputDir outcomes
          uuid).2.status = p.status)) := by
  constructor
  · intro scenes tok env dir outcomes uuid htok
    unfold generateSceneVideos
    simp only [htok, Bool.not_true, Bool.false_eq_true, if_false]
    refine ⟨_, rfl, serviceResults_length _ _ _ _, ?_⟩
    intro i hi hi2
    have hg : (serviceResults scenes dir outcomes uuid).get ⟨i, hi⟩ =
        (match outcomes i with
        | none =>
          (⟨(scenes.get ⟨i, hi2⟩).sceneId,
            pathJoin dir ("scene-video-" ++ (scenes.get ⟨i, hi2⟩).sceneId ++ "-" ++
              uuid i ++ ".mp4"), true, none⟩ : VideoResult)
        | some e => ⟨(scenes.get ⟨i, hi2⟩).sceneId, "", false, some e⟩) := by
      unfold serviceResults
      simp [List.get_eq_getElem, List.getElem_map, List.getElem_enum]
    rw [hg]
    cases ho : outcomes i <;> simp [ho]
  · intro p apiKeys envToken outputDir outcomes uuid tl htl hne hall htok
    have hni : tl.scenes.isEmpty = false := by
      simpa [List.isEmpty_iff] using hne
    have hmiss : (tl.scenes.filter fun s => !strTruthy s.imagePath) = [] := by
      rw [List.filter_eq_nil_iff]
      intro a ha
      simp [hall a ha]
    have hfilter : (tl.scenes.filter fun s => strTruthy s.imagePath) = tl.scenes :=
      List.filter_eq_self.mpr hall
    have hjs : jsOrStr (jsOrStr (apiKeys.bind ApiKeys.replicate) envToken) envToken =
        jsOrStr (apiKeys.bind ApiKeys.replicate) envToken := by
      unfold jsOrStr
      by_cases h : strTruthy (apiKeys.bind ApiKeys.replicate) = true
      · simp [h]
      · simp only [Bool.not_eq_true] at h
        simp [h]
    have hlen : (scenesForVideoOf tl).length = tl.scenes.length := by
      simp [scenesForVideoOf, List.length_mergeSort, hfilter]
    have hstat : (generateSceneVideosEndpoint p apiKeys envToken outputDir outcomes
        uuid).2.status =
        if 0 < (applyVideoResults tl.scenes (serviceResults (scenesForVideoOf tl)
          outputDir outcomes uuid)).2 then Status.videosReady else p.status := by
      unfold generateSceneVideosEndpoint
      rw [htl]
      unfold generateSceneVideos
      simp only [hjs, htok, hni, hmiss, Bool.not_true, Bool.not_false,
        Bool.false_eq_true, if_false, List.isEmpty_nil, if_true]
    have hcount : (applyVideoResults tl.scenes (serviceResults (scenesForVideoOf tl)
        outputDir outcomes uuid)).2 =
        (scenesForVideoOf tl).enum.countP fun q => (outcomes q.1).isNone := by
      rw [applyVideoResults_snd]
      exact serviceResults_countP _ _ _ _ _ (scenesForVideoOf_mem_ids tl)
    constructor
    · intro hex
      rw [hstat, if_pos]
      rw [hcount, countP_isNone_pos_iff, hlen]
      exact hex
    · intro hford
      rw [hstat, if_neg]
      rw [hcount, countP_isNone_pos_iff, hlen]
      rintro ⟨i, hi, hio⟩
      exact hford i hi hio

/-- C3 witness: a two-scene batch where scene 2's backend call throws, and a
concrete project on which the endpoint still advances to `videos-ready`. -/
theorem c3_witness :
    (∃ results, generateSceneVideos [⟨"s1", "i1.png", "t1"⟩, ⟨"s2", "i2.png", "t2"⟩]
        (some "tok") none "vids" (fun i => if i = 1 then some "boom" else none)
        (fun _ => "u") = .ok results ∧ results.length = 2) ∧
    (generateSceneVideosEndpoint
      ⟨"t", "i", Status.imagesReady, none, none, none,
        some ⟨20, [⟨"a", 0, 0, 10, 10, "tx1", "", "p", some "a.png", "stock", none, []⟩,
          ⟨"b", 1, 10, 20, 10, "tx2", "", "p", some "b.png", "stock", none, []⟩]⟩,
        none, AspectRatio.r9x16⟩
      none (some "tok") "vids"
      (fun i => if i = 1 then some "boom" else none) (fun _ => "u")).2.status =
      Status.videosReady := by
  constructor
  · rcases c3_partial_failure.1 [⟨"s1", "i1.png", "t1"⟩, ⟨"s2", "i2.png", "t2"⟩]
      (some "tok") none "vids" (fun i => if i = 1 then some "boom" else none)
      (fun _ => "u") (by decide) with ⟨results, h1, h2, _⟩
    exact ⟨results, h1, h2⟩
  · exact (c3_partial_failure.2
      ⟨"t", "i", Status.imagesReady, none, none, none,
        some ⟨20, [⟨"a", 0, 0, 10, 10, "tx1", "", "p", some "a.png", "stock", none, []⟩,
          ⟨"b", 1, 10, 20, 10, "tx2", "", "p", some "b.png", "stock", none, []⟩]⟩,
        none, AspectRatio.r9x16⟩
      none (some "tok") "vids" (fun i => if i = 1 then some "boom" else none)
      (fun _ => "u") _ rfl (by decide) (by decide) (by decide)).1 ⟨0, by decide, rfl⟩

theorem segMode_length (scenes : List ScriptScene)
    (whisperSegments : List WhisperSegment) :
    (mapScenesToTimestamps scenes [] whisperSegments).length = scenes.length := by
  simp [mapScenesToTimestamps]

theorem segMode_startTime (scenes : List ScriptScene)
    (whisperSegments : List WhisperSegment) (i : Nat)
    (h : i < (mapScenesToTimestamps scenes [] whisperSegments).length) :
    ((mapScenesToTimestamps scenes [] whisperSegments).get ⟨i, h⟩).startTime =
      (i : ℚ) * (segTotal whisperSegments / (scenes.length : ℚ)) := by
  unfold mapScenesToTimestamps
  simp [List.get_eq_getElem, List.getElem_map, List.getElem_enum]

theorem segMode_endTime (scenes : List ScriptScene)
    (whisperSegments : List WhisperSegment) (i : Nat)
    (h : i < (mapScenesToTimestamps scenes [] whisperSegments).length) :
    ((mapScenesToTimestamps scenes [] whisperSegments).get ⟨i, h⟩).endTime =
      ((i : ℚ) + 1) * (segTotal whisperSegments / (scenes.length : ℚ)) := by
  unfold mapScenesToTimestamps
  simp [List.get_eq_getElem, List.getElem_map, List.getElem_enum]

/-- C1 (amended): in segment-level mode (no word timings), for every
non-empty scene list the aligner's timeline is contiguous
(`scenes[i].endTime = scenes[i+1].startTime`), its first scene starts at 0
and its last scene ends exactly at the total duration (the last transcript
segment's end); in ℚ the floating-rounding caveat becomes exact equality.
The word-level mode gives no such guarantee (see the counterexample). -/
theorem c1_segment_mode_coverage (scenes : List ScriptScene)
    (whisperSegments : List WhisperSegment) (hne : scenes ≠ []) :
    (mapScenesToTimestamps scenes [] whisperSegments).length = scenes.length ∧
    (∀ i (h1 : i < (mapScenesToTimestamps scenes [] whisperSegments).length)
        (h2 : i + 1 < (mapScenesToTimestamps scenes [] whisperSegments).length),
      ((mapScenesToTimestamps scenes [] whisperSegments).get ⟨i, h1⟩).endTime =
        ((mapScenesToTimestamps scenes [] whisperSegments).get ⟨i + 1, h2⟩).startTime) ∧
    (∀ h : 0 < (mapScenesToTimestamps scenes [] whisperSegments).length,
      ((mapScenesToTimestamps scenes [] whisperSegments).get ⟨0, h⟩).startTime = 0) ∧
    (∀ h : 0 < (mapScenesToTimestamps scenes [] whisperSegments).length,
      ((mapScenesToTimestamps scenes [] whisperSegments).get
        ⟨(mapScenesToTimestamps scenes [] whisperSegments).length - 1,
          by omega⟩).endTime = segTotal whisperSegments) := by
  have hn : (scenes.length : ℚ) ≠ 0 := by
    have := List.length_pos.mpr hne
    exact_mod_cast Nat.pos_iff_ne_zero.mp this
  refine ⟨segMode_length scenes whisperSegments, ?_, ?_, ?_⟩
  · intro i h1 h2
    rw [segMode_endTime, segMode_startTime]
    push_cast
    ring
  · intro h
    rw [segMode_startTime]
    simp
  · intro h
    rw [segMode_endTime]
    rw [segMode_length] at h ⊢
    have h1n : 1 ≤ scenes.length := h
    rw [Nat.cast_sub h1n]
    push_cast
    field_simp

/-- C1 counterexample: in word-level mode the first scene's start time is the
matched transcript word's start, not 0 — with one scene "hello" and one
transcript word at [7, 9] (total audio duration 9 > 0), the produced
timeline starts at 7 ≠ 0, so the claimed coverage fails for the word-level
mode of `mapScenesToTimestamps`. -/
theorem c1_counterexample :
    (mapScenesToTimestamps [⟨"s1", "hello", ""⟩] [⟨"hello", 7, 9⟩] []).map
      SceneTimestamp.startTime = [7] ∧ (7 : ℚ) ≠ 0 := by
  constructor
  · rfl
  · decide

/-- C1 witness: two scenes against a single transcript segment ending at 4. -/
theorem c1_witness :
    (mapScenesToTimestamps [⟨"a", "x", ""⟩, ⟨"b", "y", ""⟩] []
      [⟨0, 0, 4, "s"⟩]).length = 2 ∧
    (∀ i (h1 : i < (mapScenesToTimestamps [⟨"a", "x", ""⟩, ⟨"b", "y", ""⟩] []
        [⟨0, 0, 4, "s"⟩]).length)
        (h2 : i + 1 < (mapScenesToTimestamps [⟨"a", "x", ""⟩, ⟨"b", "y", ""⟩] []
          [⟨0, 0, 4, "s"⟩]).length),
      ((mapScenesToTimestamps [⟨"a", "x", ""⟩, ⟨"b", "y", ""⟩] []
        [⟨0, 0, 4, "s"⟩]).get ⟨i, h1⟩).endTime =
        ((mapScenesToTimestamps [⟨"a", "x", ""⟩, ⟨"b", "y", ""⟩] []
          [⟨0, 0, 4, "s"⟩]).get ⟨i + 1, h2⟩).startTime) ∧
    (∀ h : 0 < (mapScenesToTimestamps [⟨"a", "x", ""⟩, ⟨"b", "y", ""⟩] []
        [⟨0, 0, 4, "s"⟩]).length,
      ((mapScenesToTimestamps [⟨"a", "x", ""⟩, ⟨"b", "y", ""⟩] []
        [⟨0, 0, 4, "s"⟩]).get ⟨0, h⟩).startTime = 0) ∧
    (∀ h : 0 < (mapScenesToTimestamps [⟨"a", "x", ""⟩, ⟨"b", "y", ""⟩] []
        [⟨0, 0, 4, "s"⟩]).length,
      ((mapScenesToTimestamps [⟨"a", "x", ""⟩, ⟨"b", "y", ""⟩] []
        [⟨0, 0, 4, "s"⟩]).get
        ⟨(mapScenesToTimestamps [⟨"a", "x", ""⟩, ⟨"b", "y", ""⟩] []
          [⟨0, 0, 4, "s"⟩]).length - 1, by omega⟩).endTime =
        segTotal [⟨0, 0, 4, "s"⟩]) :=
  c1_segment_mode_coverage [⟨"a", "x", ""⟩, ⟨"b", "y", ""⟩] [⟨0, 0, 4, "s"⟩]
    (by decide)

theorem chunksOf_five_nil {α : Type} : chunksOf 5 ([] : List α) = [] := by
  rw [chunksOf]
  simp

theorem chunksOf_five_cons {α : Type} (c : α) (t : List α) :
    chunksOf 5 (c :: t) = (c :: t).take 5 :: chunksOf 5 ((c :: t).drop 5) := by
  rw [chunksOf]
  rw [if_neg (by simp)]

theorem chunksOf_five_length {α : Type} (l : List α) :
    (chunksOf 5 l).length = (l.length + 4) / 5 := by
  generalize hn : l.length = n
  induction n using Nat.strong_induction_on generalizing l with
  | _ n ih =>
    subst hn
    cases l with
    | nil => simp [chunksOf_five_nil]
    | cons c t =>
      rw [chunksOf_five_cons]
      simp only [List.length_cons]
      rw [ih ((c :: t).drop 5).length (by simp [List.length_drop]; omega) _ rfl]
      simp only [List.length_drop, List.length_cons]
      omega

theorem chunksOf_five_get {α : Type} (l : List α) (j : Nat)
    (h : j < (chunksOf 5 l).length) :
    (chunksOf 5 l).get ⟨j, h⟩ = (l.drop (5 * j)).take 5 := by
  induction j generalizing l with
  | zero =>
    cases l with
    | nil =>
      exfalso
      rw [chunksOf_five_nil] at h
      simp at h
    | cons c t =>
      have h2 := h
      rw [chunksOf_five_cons] at h2
      conv => lhs; rw [List.get_of_eq (chunksOf_five_cons c t)]
      simp
  | succ j ih =>
    cases l with
    | nil =>
      exfalso
      rw [chunksOf_five_nil] at h
      simp at h
    | cons c t =>
      conv => lhs; rw [List.get_of_eq (chunksOf_five_cons c t)]
      have hlt : j < (chunksOf 5 ((c :: t).drop 5)).length := by
        have h2 := h
        rw [chunksOf_five_cons] at h2
        simpa using h2
      simp only [List.get_cons_succ]
      rw [ih ((c :: t).drop 5) hlt, List.drop_drop]
      congr 2
      omega

theorem chunksOf_five_flatten {α : Type} (l : List α) :
    (chunksOf 5 l).flatten = l := by
  generalize hn : l.length = n
  induction n using Nat.strong_induction_on generalizing l with
  | _ n ih =>
    subst hn
    cases l with
    | nil => simp [chunksOf_five_nil]
    | cons c t =>
      rw [chunksOf_five_cons]
      simp only [List.flatten_cons]
      rw [ih ((c :: t).drop 5).length (by simp [List.length_drop]; omega) _ rfl]
      exact List.take_append_drop 5 (c :: t)

theorem chunksOf_five_mem_ne_nil {α : Type} (l : List α) (c : List α)
    (h : c ∈ chunksOf 5 l) : c ≠ [] := by
  rcases List.mem_iff_get.mp h with ⟨⟨j, hj⟩, rfl⟩
  rw [chunksOf_five_get]
  have hl : 5 * j < l.length := by
    have h2 := hj
    rw [chunksOf_five_length] at h2
    omega
  intro he
  have hlen : ((l.drop (5 * j)).take 5).length = 0 := by
    rw [he]
    rfl
  rw [List.length_take, List.length_drop] at hlen
  omega

theorem srtLoop_eq (idx : Nat) (scenes : List SrtScene) :
    srtLoop idx scenes =
      ((srtBlocks scenes).enumFrom idx).map fun p => renderBlock p.1 p.2 := by
  induction scenes generalizing idx with
  | nil => simp [srtLoop, srtBlocks]
  | cons sc rest ih =>
    unfold srtLoop
    by_cases hs : sc.subtitles.isEmpty
    · rw [if_pos hs]
      by_cases ht : sc.sceneText.isEmpty
      · rw [if_neg (by simp [ht])]
        rw [ih]
        simp [srtBlocks, List.flatMap_cons, sceneBlocks, hs, ht]
      · rw [if_pos (by simp [ht])]
        rw [ih]
        simp only [srtBlocks, List.flatMap_cons, sceneBlocks, hs, if_pos,
          Bool.not_eq_true, ht, Bool.not_false, if_true, List.singleton_append,
          List.enumFrom_cons, List.map_cons]
    · rw [if_neg (by simp [hs])]
      have hsb : sceneBlocks sc = (chunksOf 5 sc.subtitles).map mkChunkBlock := by
        simp [sceneBlocks, hs]
      dsimp only
      rw [ih]
      simp only [srtBlocks, List.flatMap_cons, hsb, List.enumFrom_append,
        List.map_append]

theorem drop_take_five_head (l : List SrtSpan) (j : Nat) (h5 : 5 * j < l.length) :
    ((l.drop (5 * j)).take 5).head? = some (l.get ⟨5 * j, h5⟩) := by
  rw [List.head?_take, if_neg (by omega), List.head?_drop,
    List.getElem?_eq_getElem h5]
  simp [List.get_eq_getElem]

theorem drop_take_five_getLast (l : List SrtSpan) (j : Nat) (h5 : 5 * j < l.length)
    (h6 : min (5 * j + 4) (l.length - 1) < l.length) :
    ((l.drop (5 * j)).take 5).getLast? =
      some (l.get ⟨min (5 * j + 4) (l.length - 1), h6⟩) := by
  have hlen : ((l.drop (5 * j)).take 5).length = min 5 (l.length - 5 * j) := by
    simp [List.length_take, List.length_drop]
  have hidx : ((l.drop (5 * j)).take 5).length - 1 <
      ((l.drop (5 * j)).take 5).length := by
    rw [hlen]
    omega
  rw [List.getLast?_eq_getElem?, List.getElem?_eq_getElem hidx]
  have hidx2 : ((l.drop (5 * j)).take 5).length - 1 < (l.drop (5 * j)).length := by
    rw [List.length_drop]
    rw [hlen]
    omega
  have h1 : ((l.drop (5 * j)).take 5)[((l.drop (5 * j)).take 5).length - 1] =
      (l.drop (5 * j))[((l.drop (5 * j)).take 5).length - 1] :=
    List.getElem_take _
  have hidx3 : 5 * j + (((l.drop (5 * j)).take 5).length - 1) < l.length := by
    rw [hlen]
    omega
  have h2 : (l.drop (5 * j))[((l.drop (5 * j)).take 5).length - 1] =
      l[5 * j + (((l.drop (5 * j)).take 5).length - 1)] :=
    List.getElem_drop l
  have hind : 5 * j + (((l.drop (5 * j)).take 5).length - 1) =
      min (5 * j + 4) (l.length - 1) := by
    rw [hlen]
    omega
  rw [h1, h2]
  congr 1
  rw [List.get_eq_getElem]
  simp only [hind]

/-- C5: the SRT file is the in-order rendering of the caption blocks with
sequential indices starting at 1; a scene with n > 0 spans contributes
ceil(n/5) blocks — the spans in order in groups of 5, each block starting
at its first span's start, ending at its last span's end, its text the
span texts joined by spaces — and a scene with no spans but non-empty text
contributes exactly one block spanning the scene with its full text. -/
theorem c5_srt_block_structure :
    (∀ scenes : List SrtScene,
      generateSrtSubtitle scenes = String.intercalate "\n"
        (((srtBlocks scenes).enumFrom 1).map fun p => renderBlock p.1 p.2)) ∧
    (∀ sc : SrtScene, sc.subtitles ≠ [] →
      (sceneBlocks sc).length = (sc.subtitles.length + 4) / 5 ∧
      ∀ j (hj : j < (sceneBlocks sc).length),
        ∃ (h5 : 5 * j < sc.subtitles.length)
          (h6 : min (5 * j + 4) (sc.subtitles.length - 1) < sc.subtitles.length),
          (sceneBlocks sc).get ⟨j, hj⟩ =
            mkChunkBlock ((sc.subtitles.drop (5 * j)).take 5) ∧
          ((sceneBlocks sc).get ⟨j, hj⟩).start =
            (sc.subtitles.get ⟨5 * j, h5⟩).start ∧
          ((sceneBlocks sc).get ⟨j, hj⟩).endT =
            (sc.subtitles.get ⟨min (5 * j + 4) (sc.subtitles.length - 1), h6⟩).endT ∧
          ((sceneBlocks sc).get ⟨j, hj⟩).text =
            String.intercalate " "
              (((sc.subtitles.drop (5 * j)).take 5).map SrtSpan.text)) ∧
    (∀ sc : SrtScene, sc.subtitles = [] → sc.sceneText ≠ "" →
      sceneBlocks sc = [⟨sc.startTime, sc.endTime, sc.sceneText⟩]) := by
  refine ⟨?_, ?_, ?_⟩
  · intro scenes
    unfold generateSrtSubtitle
    rw [srtLoop_eq]
  · intro sc hsub
    have hsf : sc.subtitles.isEmpty = false := by
      simpa [List.isEmpty_iff] using hsub
    have hsb : sceneBlocks sc = (chunksOf 5 sc.subtitles).map mkChunkBlock := by
      simp [sceneBlocks, hsf]
    constructor
    · rw [hsb, List.length_map, chunksOf_five_length]
    · intro j hj
      have hj2 : j < ((chunksOf 5 sc.subtitles).map mkChunkBlock).length := by
        rw [← hsb]
        exact hj
      have hj3 : j < (chunksOf 5 sc.subtitles).length := by
        simpa using hj2
      have h5 : 5 * j < sc.subtitles.length := by
        rw [List.length_map, chunksOf_five_length] at hj2
        omega
      have h6 : min (5 * j + 4) (sc.subtitles.length - 1) < sc.subtitles.length := by
        omega
      have hget : (sceneBlocks sc).get ⟨j, hj⟩ =
          mkChunkBlock ((sc.subtitles.drop (5 * j)).take 5) := by
        rw [List.get_of_eq hsb]
        rw [List.get_eq_getElem, List.getElem_map]
        rw [← List.get_eq_getElem (chunksOf 5 sc.subtitles) ⟨j, hj3⟩]
        rw [chunksOf_five_get]
      refine ⟨h5, h6, hget, ?_, ?_, ?_⟩
      · rw [hget]
        unfold mkChunkBlock
        rw [drop_take_five_head sc.subtitles j h5]
        rfl
      · rw [hget]
        unfold mkChunkBlock
        rw [drop_take_five_getLast sc.subtitles j h5 h6]
        rfl
      · rw [hget]
        rfl
  · intro sc hsub htxt
    have ht : sc.sceneText.isEmpty = false := by
      cases he : sc.sceneText.isEmpty
      · rfl
      · exact absurd ((String.isEmpty_iff _).mp he) htxt
    simp [sceneBlocks, hsub, ht]

/-- C5 witness: a two-span scene (one block) and a text-only scene. -/
theorem c5_witness :
    ((sceneBlocks ⟨"tx", 0, 9, [⟨0, 1, "a"⟩, ⟨1, 2, "b"⟩]⟩).length =
      ((⟨"tx", 0, 9, [⟨0, 1, "a"⟩, ⟨1, 2, "b"⟩]⟩ :
        SrtScene).subtitles.length + 4) / 5 ∧
      ∀ j (hj : j < (sceneBlocks ⟨"tx", 0, 9, [⟨0, 1, "a"⟩, ⟨1, 2, "b"⟩]⟩).length),
        ∃ (h5 : 5 * j < (⟨"tx", 0, 9, [⟨0, 1, "a"⟩, ⟨1, 2, "b"⟩]⟩ :
            SrtScene).subtitles.length)
          (h6 : min (5 * j + 4) ((⟨"tx", 0, 9, [⟨0, 1, "a"⟩, ⟨1, 2, "b"⟩]⟩ :
            SrtScene).subtitles.length - 1) <
            (⟨"tx", 0, 9, [⟨0, 1, "a"⟩, ⟨1, 2, "b"⟩]⟩ :
              SrtScene).subtitles.length),
          (sceneBlocks ⟨"tx", 0, 9, [⟨0, 1, "a"⟩, ⟨1, 2, "b"⟩]⟩).get ⟨j, hj⟩ =
            mkChunkBlock (((⟨"tx", 0, 9, [⟨0, 1, "a"⟩, ⟨1, 2, "b"⟩]⟩ :
              SrtScene).subtitles.drop (5 * j)).take 5) ∧
          ((sceneBlocks ⟨"tx", 0, 9, [⟨0, 1, "a"⟩, ⟨1, 2, "b"⟩]⟩).get
            ⟨j, hj⟩).start =
            ((⟨"tx", 0, 9, [⟨0, 1, "a"⟩, ⟨1, 2, "b"⟩]⟩ :
              SrtScene).subtitles.get ⟨5 * j, h5⟩).start ∧
          ((sceneBlocks ⟨"tx", 0, 9, [⟨0, 1, "a"⟩, ⟨1, 2, "b"⟩]⟩).get
            ⟨j, hj⟩).endT =
            ((⟨"tx", 0, 9, [⟨0, 1, "a"⟩, ⟨1, 2, "b"⟩]⟩ :
              SrtScene).subtitles.get
                ⟨min (5 * j + 4) ((⟨"tx", 0, 9, [⟨0, 1, "a"⟩, ⟨1, 2, "b"⟩]⟩ :
                  SrtScene).subtitles.length - 1), h6⟩).endT ∧
          ((sceneBlocks ⟨"tx", 0, 9, [⟨0, 1, "a"⟩, ⟨1, 2, "b"⟩]⟩).get
            ⟨j, hj⟩).text =
            String.intercalate " "
              ((((⟨"tx", 0, 9, [⟨0, 1, "a"⟩, ⟨1, 2, "b"⟩]⟩ :
                SrtScene).subtitles.drop (5 * j)).take 5).map SrtSpan.text)) ∧
    sceneBlocks ⟨"solo", 3, 4, []⟩ = [⟨3, 4, "solo"⟩] :=
  ⟨c5_srt_block_structure.2.1 ⟨"tx", 0, 9, [⟨0, 1, "a"⟩, ⟨1, 2, "b"⟩]⟩
      (by decide),
    c5_srt_block_structure.2.2 ⟨"solo", 3, 4, []⟩ rfl (by decide)⟩

/-- A list of time intervals is chained when each is well-formed
(start ≤ end) and consecutive intervals do not overlap backwards. -/
def intervalsChained (l : List (ℚ × ℚ)) : Prop :=
  (∀ p ∈ l, p.1 ≤ p.2) ∧ l.Chain' fun p q => p.2 ≤ q.1

/-- The time intervals a scene feeds into the SRT generator, in emission
order: its spans, or the whole-scene interval for a text-only scene. -/
def emittedIntervals (sc : SrtScene) : List (ℚ × ℚ) :=
  if sc.subtitles.isEmpty then
    if !sc.sceneText.isEmpty then [(sc.startTime, sc.endTime)] else []
  else sc.subtitles.map fun s => (s.start, s.endT)

/-- The interval covered by one group of intervals. -/
def combine (g : List (ℚ × ℚ)) : ℚ × ℚ :=
  ((g.head?.map Prod.fst).getD 0, (g.getLast?.map Prod.snd).getD 0)

theorem chained_head_le_last (l : List (ℚ × ℚ)) (hl : intervalsChained l)
    (a b : ℚ × ℚ) (ha : l.head? = some a) (hb : l.getLast? = some b) :
    a.1 ≤ b.2 := by
  induction l generalizing a with
  | nil => simp at ha
  | cons p t ih =>
    have hpa : p = a := by simpa using ha
    cases t with
    | nil =>
      have hpb : p = b := by simpa using hb
      rw [← hpa, ← hpb]
      exact hl.1 p (by simp)
    | cons q t2 =>
      have hlink : p.2 ≤ q.1 := (List.chain'_cons.mp hl.2).1
      have ht : intervalsChained (q :: t2) :=
        ⟨fun x hx => hl.1 x (List.mem_cons_of_mem _ hx),
          (List.chain'_cons.mp hl.2).2⟩
      have hb2 : (q :: t2).getLast? = some b := by
        rw [← List.getLast?_cons_cons]
        exact hb
      have hq : q.1 ≤ b.2 := ih ht q rfl hb2
      have haa : p.1 ≤ p.2 := hl.1 p (by simp)
      rw [← hpa]
      linarith

theorem chained_sub_append_left (l1 l2 : List (ℚ × ℚ))
    (h : intervalsChained (l1 ++ l2)) : intervalsChained l1 :=
  ⟨fun p hp => h.1 p (List.mem_append_left _ hp), (List.chain'_append.mp h.2).1⟩

theorem chained_sub_append_right (l1 l2 : List (ℚ × ℚ))
    (h : intervalsChained (l1 ++ l2)) : intervalsChained l2 :=
  ⟨fun p hp => h.1 p (List.mem_append_right _ hp), (List.chain'_append.mp h.2).2.1⟩

theorem chained_of_mem_groups (groups : List (List (ℚ × ℚ)))
    (h : intervalsChained groups.flatten) : ∀ g ∈ groups, intervalsChained g := by
  induction groups with
  | nil => simp
  | cons g0 gs ih =>
    intro g hg
    rw [List.flatten_cons] at h
    rcases List.mem_cons.mp hg with rfl | hg2
    · exact chained_sub_append_left _ _ h
    · exact ih (chained_sub_append_right _ _ h) g hg2

theorem combine_fst {a : ℚ × ℚ} {t : List (ℚ × ℚ)} :
    (combine (a :: t)).1 = a.1 := by
  simp [combine]

theorem combine_snd {g : List (ℚ × ℚ)} {b : ℚ × ℚ} (h : g.getLast? = some b) :
    (combine g).2 = b.2 := by
  simp [combine, h]

theorem groups_chain_link (groups : List (List (ℚ × ℚ)))
    (hne : ∀ g ∈ groups, g ≠ []) (h : intervalsChained groups.flatten) :
    List.Chain' (fun g g' => (combine g).2 ≤ (combine g').1) groups := by
  induction groups with
  | nil => simp
  | cons g gs ih =>
    cases gs with
    | nil => simp
    | cons g2 gs2 =>
      rw [List.flatten_cons] at h
      rw [List.chain'_cons]
      refine ⟨?_, ?_⟩
      · have hgne : g ≠ [] := hne g (by simp)
        have hg2ne : g2 ≠ [] := hne g2 (by simp)
        have hlast : g.getLast? = some (g.getLast hgne) :=
          List.getLast?_eq_getLast _ _
        obtain ⟨a2, t2, rfl⟩ : ∃ a2 t2, g2 = a2 :: t2 := by
          cases g2 with
          | nil => exact absurd rfl hg2ne
          | cons x y => exact ⟨x, y, rfl⟩
        rw [combine_snd hlast, combine_fst]
        have hch := (List.chain'_append.mp h.2).2.2
        have hy : ((a2 :: t2) :: gs2).flatten.head? = some a2 := by
          rw [List.flatten_cons]
          rfl
        exact hch (g.getLast hgne) hlast a2 hy
      · exact ih (fun x hx => hne x (List.mem_cons_of_mem _ hx))
          (chained_sub_append_right _ _ h)

theorem chained_flatMap_pairs (l : List (ℚ × ℚ)) (h : intervalsChained l) :
    List.Chain' (· ≤ ·) (l.flatMap fun p => [p.1, p.2]) := by
  induction l with
  | nil => simp
  | cons p t ih =>
    cases t with
    | nil =>
      refine List.chain'_cons.mpr ⟨h.1 p (by simp), ?_⟩
      simp
    | cons q t2 =>
      have hlink : p.2 ≤ q.1 := (List.chain'_cons.mp h.2).1
      have hwf : p.1 ≤ p.2 := h.1 p (by simp)
      have hrest := ih ⟨fun x hx => h.1 x (List.mem_cons_of_mem _ hx),
        (List.chain'_cons.mp h.2).2⟩
      simp only [List.flatMap_cons, List.cons_append, List.nil_append] at hrest ⊢
      exact List.chain'_cons.mpr ⟨hwf, List.chain'_cons.mpr ⟨hlink, hrest⟩⟩

theorem chunksOf_five_map {α β : Type} (f : α → β) (l : List α) :
    chunksOf 5 (l.map f) = (chunksOf 5 l).map (List.map f) := by
  generalize hn : l.length = n
  induction n using Nat.strong_induction_on generalizing l with
  | _ n ih =>
    subst hn
    cases l with
    | nil => simp [chunksOf_five_nil]
    | cons c t =>
      rw [List.map_cons, chunksOf_five_cons, chunksOf_five_cons, List.map_cons]
      congr 1
      · rw [← List.map_cons, ← List.map_take]
      · rw [← List.map_cons, ← List.map_drop]
        rw [ih ((c :: t).drop 5).length (by simp [List.length_drop]; omega) _ rfl]

theorem flatten_flatMap {α β : Type} (l : List α) (f : α → List (List β)) :
    (l.flatMap f).flatten = l.flatMap fun a => (f a).flatten := by
  induction l with
  | nil => rfl
  | cons a t ih => simp [List.flatMap_cons, List.flatten_append, ih]

theorem sceneBlocks_pairs (sc : SrtScene) :
    (sceneBlocks sc).map (fun b => (b.start, b.endT)) =
      (chunksOf 5 (emittedIntervals sc)).map combine := by
  by_cases hs : sc.subtitles.isEmpty
  · by_cases ht : sc.sceneText.isEmpty
    · simp [sceneBlocks, emittedIntervals, hs, ht, chunksOf_five_nil]
    · simp only [sceneBlocks, emittedIntervals, hs, ht, Bool.not_false, if_true,
        if_pos, List.map_cons, List.map_nil]
      rw [chunksOf_five_cons]
      simp [chunksOf_five_nil, combine]
  · have hemit : emittedIntervals sc = sc.subtitles.map fun s => (s.start, s.endT) := by
      simp [emittedIntervals, hs]
    have hsb : sceneBlocks sc = (chunksOf 5 sc.subtitles).map mkChunkBlock := by
      simp [sceneBlocks, hs]
    rw [hemit, chunksOf_five_map, hsb, List.map_map, List.map_map]
    congr 1
    funext c
    simp only [Function.comp, mkChunkBlock, combine, List.head?_map,
      List.getLast?_map, Option.map_map]
    rfl

theorem groups_chain (groups : List (List (ℚ × ℚ)))
    (hne : ∀ g ∈ groups, g ≠ []) (h : intervalsChained groups.flatten) :
    intervalsChained (groups.map combine) := by
  constructor
  · intro x hx
    rcases List.mem_map.mp hx with ⟨g, hg, rfl⟩
    have hgc := chained_of_mem_groups groups h g hg
    have hgne := hne g hg
    cases g with
    | nil => exact absurd rfl hgne
    | cons a t =>
      have hlast : (a :: t).getLast? = some ((a :: t).getLast (by simp)) :=
        List.getLast?_eq_getLast _ _
      rw [combine_fst, combine_snd hlast]
      exact chained_head_le_last _ hgc a _ rfl hlast
  · rw [List.chain'_map]
    exact groups_chain_link groups hne h

/-- C6 (amended): when the emitted intervals of the input timeline are
chained in order — each span well-formed and consecutive spans
non-overlapping, as an in-order timeline produced by the aligner is — the
caption blocks' timestamp sequence is non-decreasing in output order.
The claim's unconditional version over arbitrary out-of-order edits is
refuted by the counterexample. -/
theorem c6_monotone_when_chained (scenes : List SrtScene)
    (h : intervalsChained (scenes.flatMap emittedIntervals)) :
    (timestampSeq (srtBlocks scenes)).Chain' (· ≤ ·) := by
  have hblocks : (srtBlocks scenes).map (fun b => (b.start, b.endT)) =
      (scenes.flatMap fun sc => chunksOf 5 (emittedIntervals sc)).map combine := by
    unfold srtBlocks
    rw [List.map_flatMap, List.map_flatMap]
    congr 1
    funext sc
    exact sceneBlocks_pairs sc
  have hts : timestampSeq (srtBlocks scenes) =
      ((srtBlocks scenes).map fun b => (b.start, b.endT)).flatMap
        fun p => [p.1, p.2] := by
    unfold timestampSeq
    rw [List.flatMap_map]
  rw [hts, hblocks]
  apply chained_flatMap_pairs
  apply groups_chain
  · intro g hg
    rcases List.mem_flatMap.mp hg with ⟨sc, _, hgc⟩
    exact chunksOf_five_mem_ne_nil _ g hgc
  · rw [flatten_flatMap]
    have hfl : (fun sc => (chunksOf 5 (emittedIntervals sc)).flatten) =
        emittedIntervals := by
      funext sc
      exact chunksOf_five_flatten _
    rw [hfl]
    exact h

/-- C6 counterexample: with out-of-order scene edits — scene [10,20] before
scene [0,5] — the generated caption blocks' timestamps run 10, 20, 0, 5 in
output order, which is not monotonically non-decreasing; the claim's
"for every input scene list, including overlapping or out-of-order edits"
fails. -/
theorem c6_counterexample :
    timestampSeq (srtBlocks [⟨"a", 10, 20, []⟩, ⟨"b", 0, 5, []⟩]) =
      [10, 20, 0, 5] ∧
    ¬ (timestampSeq (srtBlocks [⟨"a", 10, 20, []⟩, ⟨"b", 0, 5, []⟩])).Chain'
      (· ≤ ·) := by
  have he : timestampSeq (srtBlocks [⟨"a", 10, 20, []⟩, ⟨"b", 0, 5, []⟩]) =
      [10, 20, 0, 5] := rfl
  refine ⟨he, ?_⟩
  rw [he]
  intro hc
  have h20 : (20 : ℚ) ≤ 0 := (List.chain'_cons.mp (List.chain'_cons.mp hc).2).1
  norm_num at h20

/-- C6 witness: an in-order two-scene timeline is chained, so its caption
timestamps are non-decreasing. -/
theorem c6_witness :
    (timestampSeq (srtBlocks [⟨"a", 0, 5, []⟩, ⟨"b", 5, 9, []⟩])).Chain'
      (· ≤ ·) := by
  apply c6_monotone_when_chained
  show intervalsChained [((0 : ℚ), (5 : ℚ)), (5, 9)]
  constructor
  · intro p hp
    rcases List.mem_cons.mp hp with rfl | hp2
    · norm_num
    · rcases List.mem_cons.mp hp2 with rfl | hp3
      · norm_num
      · simp at hp3
  · refine List.chain'_cons.mpr ⟨by norm_num, ?_⟩
    simp

/-- Decidable package: padding a two-digit number yields two digit
characters that read back as the number. -/
def twoDigitShape (n : Nat) : Bool :=
  match (padStart (toString n) 2 '0').data with
  | [a, b] => a.isDigit && b.isDigit && (digitVal a * 10 + digitVal b == n)
  | _ => false

theorem twoDigitShape_ok : ∀ n : Nat, n < 100 → twoDigitShape n = true := by decide

/-- Decidable package for three-digit padding. -/
def threeDigitShape (n : Nat) : Bool :=
  match (padStart (toString n) 3 '0').data with
  | [a, b, c] =>
    a.isDigit && b.isDigit && c.isDigit &&
      (digitVal a * 100 + digitVal b * 10 + digitVal c == n)
  | _ => false

set_option maxRecDepth 20000 in
set_option maxHeartbeats 1000000 in
theorem threeDigitShape_ok : ∀ n : Nat, n < 1000 → threeDigitShape n = true := by
  decide

theorem twoDigit_exists (n : Nat) (h : n < 100) :
    ∃ a b, (padStart (toString n) 2 '0').data = [a, b] ∧ a.isDigit = true ∧
      b.isDigit = true ∧ digitVal a * 10 + digitVal b = n := by
  have hs := twoDigitShape_ok n h
  unfold twoDigitShape at hs
  rcases hd : (padStart (toString n) 2 '0').data with _ | ⟨a, _ | ⟨b, _ | ⟨c, t⟩⟩⟩ <;>
    rw [hd] at hs
  · simp at hs
  · simp at hs
  · refine ⟨a, b, rfl, ?_, ?_, ?_⟩ <;> simp at hs <;> tauto
  · simp at hs

theorem threeDigit_exists (n : Nat) (h : n < 1000) :
    ∃ a b c, (padStart (toString n) 3 '0').data = [a, b, c] ∧ a.isDigit = true ∧
      b.isDigit = true ∧ c.isDigit = true ∧
      digitVal a * 100 + digitVal b * 10 + digitVal c = n := by
  have hs := threeDigitShape_ok n h
  unfold threeDigitShape at hs
  rcases hd : (padStart (toString n) 3 '0').data with
    _ | ⟨a, _ | ⟨b, _ | ⟨c, _ | ⟨d, t⟩⟩⟩⟩ <;> rw [hd] at hs
  · simp at hs
  · simp at hs
  · simp at hs
  · refine ⟨a, b, c, rfl, ?_, ?_, ?_, ?_⟩ <;> simp at hs <;> tauto
  · simp at hs

theorem jsMod_eq (q b : ℚ) (h0 : 0 ≤ q) (hb : 0 < b) :
    jsMod q b = q - b * (⌊q / b⌋ : ℚ) := by
  unfold jsMod rTrunc
  rw [if_pos (by positivity)]

theorem jsMod_nonneg (q b : ℚ) (h0 : 0 ≤ q) (hb : 0 < b) : 0 ≤ jsMod q b := by
  rw [jsMod_eq q b h0 hb]
  have h1 : (⌊q / b⌋ : ℚ) ≤ q / b := Int.floor_le (q / b)
  have h2 : b * (⌊q / b⌋ : ℚ) ≤ b * (q / b) :=
    mul_le_mul_of_nonneg_left h1 (le_of_lt hb)
  have h3 : b * (q / b) = q := by
    field_simp
  linarith

theorem jsMod_lt (q b : ℚ) (h0 : 0 ≤ q) (hb : 0 < b) : jsMod q b < b := by
  rw [jsMod_eq q b h0 hb]
  have h1 : q / b < (⌊q / b⌋ : ℚ) + 1 := Int.lt_floor_add_one (q / b)
  have h2 : q / b * b < ((⌊q / b⌋ : ℚ) + 1) * b := mul_lt_mul_of_pos_right h1 hb
  rw [div_mul_cancel₀ _ (ne_of_gt hb)] at h2
  linarith

theorem jsMod_one_eq_fract (q : ℚ) (h0 : 0 ≤ q) : jsMod q 1 = Int.fract q := by
  rw [jsMod_eq q 1 h0 one_pos, div_one, one_mul, Int.self_sub_floor]

theorem floor_jsMod_m (q : ℚ) (h0 : 0 ≤ q) :
    ⌊jsMod q 3600 / 60⌋ = ⌊q / 60⌋ - 60 * ⌊q / 3600⌋ := by
  rw [jsMod_eq q 3600 h0 (by norm_num)]
  have hr : (q - 3600 * (⌊q / 3600⌋ : ℚ)) / 60 =
      q / 60 - ((60 * ⌊q / 3600⌋ : ℤ) : ℚ) := by
    push_cast
    ring
  rw [hr, Int.floor_sub_int]

theorem floor_jsMod_s (q : ℚ) (h0 : 0 ≤ q) :
    ⌊jsMod q 60⌋ = ⌊q⌋ - 60 * ⌊q / 60⌋ := by
  rw [jsMod_eq q 60 h0 (by norm_num)]
  have hr : q - 60 * (⌊q / 60⌋ : ℚ) = q - ((60 * ⌊q / 60⌋ : ℤ) : ℚ) := by
    push_cast
    ring
  rw [hr, Int.floor_sub_int]

theorem int_toString_toNat (z : ℤ) (h : 0 ≤ z) : toString z = toString z.toNat := by
  conv_lhs => rw [← Int.toNat_of_nonneg h]
  rfl

/-- C7 (amended): for every seconds value in [0, 360000) whose millisecond
rounding stays below 1000 (i.e. fractional part < 0.9995), `formatTime`
produces a string of the exact `HH:MM:SS,mmm` shape denoting the same
instant to within half a millisecond. Without those bounds the shape breaks:
see the counterexample (ms rounding can reach 1000, printing four digits). -/
theorem c7_formatTime_shape (q : ℚ) (h0 : 0 ≤ q) (hq : q < 360000)
    (hms : jsRound (jsMod q 1 * 1000) ≤ 999) :
    ∃ v, srtTimeValue (formatTime q) = some v ∧ |v - q| ≤ 1 / 2000 := by
  have hfr0 : 0 ≤ Int.fract q := Int.fract_nonneg q
  have hmsrw : jsMod q 1 = Int.fract q := jsMod_one_eq_fract q h0
  have hI0 : 0 ≤ ⌊q / 3600⌋ := Int.floor_nonneg.mpr (by positivity)
  have hI100 : ⌊q / 3600⌋ < 100 := by
    apply Int.floor_lt.mpr
    rw [div_lt_iff (by norm_num : (0:ℚ) < 3600)]
    push_cast
    linarith
  have hm0 : 0 ≤ ⌊jsMod q 3600 / 60⌋ :=
    Int.floor_nonneg.mpr
      (div_nonneg (jsMod_nonneg q 3600 h0 (by norm_num)) (by norm_num))
  have hm60 : ⌊jsMod q 3600 / 60⌋ < 60 := by
    apply Int.floor_lt.mpr
    rw [div_lt_iff (by norm_num : (0:ℚ) < 60)]
    have := jsMod_lt q 3600 h0 (by norm_num)
    push_cast
    linarith
  have hs0 : 0 ≤ ⌊jsMod q 60⌋ :=
    Int.floor_nonneg.mpr (jsMod_nonneg q 60 h0 (by norm_num))
  have hs60 : ⌊jsMod q 60⌋ < 60 := by
    apply Int.floor_lt.mpr
    have := jsMod_lt q 60 h0 (by norm_num)
    push_cast
    linarith
  have hms0 : 0 ≤ jsRound (jsMod q 1 * 1000) := by
    unfold jsRound
    apply Int.floor_nonneg.mpr
    rw [hmsrw]
    have := mul_nonneg hfr0 (by norm_num : (0:ℚ) ≤ 1000)
    linarith
  obtain ⟨a1, a2, hda, ha1, ha2, hva⟩ :=
    twoDigit_exists (⌊q / 3600⌋).toNat (by omega)
  obtain ⟨b1, b2, hdb, hb1, hb2, hvb⟩ :=
    twoDigit_exists (⌊jsMod q 3600 / 60⌋).toNat (by omega)
  obtain ⟨c1, c2, hdc, hc1, hc2, hvc⟩ :=
    twoDigit_exists (⌊jsMod q 60⌋).toNat (by omega)
  obtain ⟨d1, d2, d3, hdd, hd1, hd2, hd3, hvd⟩ :=
    threeDigit_exists (jsRound (jsMod q 1 * 1000)).toNat (by omega)
  have hfd : (formatTime q).data =
      [a1, a2, ':', b1, b2, ':', c1, c2, ',', d1, d2, d3] := by
    unfold formatTime
    dsimp only
    rw [int_toString_toNat _ hI0, int_toString_toNat _ hm0,
      int_toString_toNat _ hs0, int_toString_toNat _ hms0]
    simp only [String.data_append, hda, hdb, hdc, hdd]
    rfl
  have hv : srtTimeValue (formatTime q) =
      some ((((digitVal a1 * 10 + digitVal a2) * 3600 +
        (digitVal b1 * 10 + digitVal b2) * 60 +
        (digitVal c1 * 10 + digitVal c2) : ℕ) : ℚ) +
        ((digitVal d1 * 100 + digitVal d2 * 10 + digitVal d3 : ℕ) : ℚ) / 1000) := by
    unfold srtTimeValue
    rw [hfd]
    dsimp only
    rw [if_pos ⟨rfl, rfl, rfl, by
      simp [ha1, ha2, hb1, hb2, hc1, hc2, hd1, hd2, hd3]⟩]
  refine ⟨_, hv, ?_⟩
  rw [hva, hvb, hvc, hvd]
  have hdecomp : 3600 * ⌊q / 3600⌋ + 60 * ⌊jsMod q 3600 / 60⌋ + ⌊jsMod q 60⌋ =
      ⌊q⌋ := by
    rw [floor_jsMod_m q h0, floor_jsMod_s q h0]
    ring
  have hcast : ((⌊q / 3600⌋.toNat * 3600 + ⌊jsMod q 3600 / 60⌋.toNat * 60 +
      ⌊jsMod q 60⌋.toNat : ℕ) : ℚ) = ((⌊q⌋ : ℤ) : ℚ) := by
    have h' : ((⌊q / 3600⌋.toNat * 3600 + ⌊jsMod q 3600 / 60⌋.toNat * 60 +
        ⌊jsMod q 60⌋.toNat : ℕ) : ℤ) = ⌊q⌋ := by
      push_cast [Int.toNat_of_nonneg hI0, Int.toNat_of_nonneg hm0,
        Int.toNat_of_nonneg hs0]
      linarith [hdecomp]
    exact_mod_cast h'
  have htn : ((jsRound (jsMod q 1 * 1000)).toNat : ℚ) =
      ((jsRound (jsMod q 1 * 1000) : ℤ) : ℚ) := by
    exact_mod_cast Int.toNat_of_nonneg hms0
  have hmsq : jsRound (jsMod q 1 * 1000) = ⌊Int.fract q * 1000 + 1 / 2⌋ := by
    unfold jsRound
    rw [hmsrw]
  have hle : ((⌊Int.fract q * 1000 + 1 / 2⌋ : ℤ) : ℚ) ≤
      Int.fract q * 1000 + 1 / 2 := Int.floor_le _
  have hgt : Int.fract q * 1000 + 1 / 2 <
      ((⌊Int.fract q * 1000 + 1 / 2⌋ : ℤ) : ℚ) + 1 := Int.lt_floor_add_one _
  have hfl : ((⌊q⌋ : ℤ) : ℚ) + Int.fract q = q := Int.floor_add_fract q
  rw [abs_sub_le_iff]
  rw [hcast, htn, hmsq]
  constructor
  · linarith
  · linarith

/-- At 0.9995 s the millisecond field rounds to 1000 and is printed as four
digits: `formatTime` yields "00:00:00,1000", which is not of the claimed
`HH:MM:SS,mmm` shape (13 characters, no parse), so the unamended claim fails. -/
theorem c7_counterexample :
    formatTime (1999 / 2000 : ℚ) = "00:00:00,1000" ∧
    srtTimeValue (formatTime (1999 / 2000 : ℚ)) = none := by
  have e1 : ⌊(1999 / 2000 : ℚ) / 3600⌋ = 0 := by
    rw [Int.floor_eq_zero_iff, Set.mem_Ico]
    norm_num
  have e2 : jsMod (1999 / 2000 : ℚ) 3600 = 1999 / 2000 := by
    unfold jsMod rTrunc
    rw [if_pos (by norm_num : (0 : ℚ) ≤ (1999 / 2000 : ℚ) / 3600), e1]
    norm_num
  have e3 : ⌊jsMod (1999 / 2000 : ℚ) 3600 / 60⌋ = 0 := by
    rw [e2, Int.floor_eq_zero_iff, Set.mem_Ico]
    norm_num
  have e1' : ⌊(1999 / 2000 : ℚ) / 60⌋ = 0 := by
    rw [Int.floor_eq_zero_iff, Set.mem_Ico]
    norm_num
  have e4 : jsMod (1999 / 2000 : ℚ) 60 = 1999 / 2000 := by
    unfold jsMod rTrunc
    rw [if_pos (by norm_num : (0 : ℚ) ≤ (1999 / 2000 : ℚ) / 60), e1']
    norm_num
  have e5 : ⌊jsMod (1999 / 2000 : ℚ) 60⌋ = 0 := by
    rw [e4, Int.floor_eq_zero_iff, Set.mem_Ico]
    norm_num
  have e0 : ⌊(1999 / 2000 : ℚ) / 1⌋ = 0 := by
    rw [Int.floor_eq_zero_iff, Set.mem_Ico]
    norm_num
  have e6 : jsMod (1999 / 2000 : ℚ) 1 = 1999 / 2000 := by
    unfold jsMod rTrunc
    rw [if_pos (by norm_num : (0 : ℚ) ≤ (1999 / 2000 : ℚ) / 1), e0]
    norm_num
  have e7 : jsRound (jsMod (1999 / 2000 : ℚ) 1 * 1000) = 1000 := by
    rw [e6]
    unfold jsRound
    have harg : (1999 / 2000 : ℚ) * 1000 + 1 / 2 = ((1000 : ℤ) : ℚ) := by
      norm_num
    rw [harg, Int.floor_intCast]
  have hft : formatTime (1999 / 2000 : ℚ) = "00:00:00,1000" := by
    unfold formatTime
    dsimp only
    rw [e1, e3, e5, e7]
    rfl
  exact ⟨hft, by rw [hft]; rfl⟩

theorem c7_witness :
    (0 : ℚ) ≤ 0 ∧ (0 : ℚ) < 360000 ∧ jsRound (jsMod (0 : ℚ) 1 * 1000) ≤ 999 ∧
    ∃ v, srtTimeValue (formatTime (0 : ℚ)) = some v ∧ |v - 0| ≤ 1 / 2000 := by
  have h1 : (0 : ℚ) ≤ 0 := le_refl 0
  have h2 : (0 : ℚ) < 360000 := by norm_num
  have h3 : jsRound (jsMod (0 : ℚ) 1 * 1000) ≤ 999 := by
    have hz : jsMod (0 : ℚ) 1 = 0 := by
      unfold jsMod rTrunc
      norm_num
    rw [hz]
    unfold jsRound
    have harg : (0 : ℚ) * 1000 + 1 / 2 = 1 / 2 := by norm_num
    rw [harg]
    have hfl : ⌊(1 / 2 : ℚ)⌋ = 0 := by
      rw [Int.floor_eq_zero_iff, Set.mem_Ico]
      norm_num
    rw [hfl]
    norm_num
  exact ⟨h1, h2, h3, c7_formatTime_shape 0 h1 h2 h3⟩
